import Mathlib

/-!
# WebSocket-Game: room registry and board engine of `server.js`

A shallow embedding of the socket handlers (`createRoom`, `joinRoom`, `move`,
`chat`, `disconnect`) and of the board functions (`initBoard`, `isValidMove`,
`applyMove`, `checkWin`, `isDraw`, `resetRoom`) of `src/server.js`, followed by
theorems about them.

Conventions of the embedding:

* a board cell is `Option Symbol`, `none` being JavaScript `null`;
* an array read `arr[i]` is `Option`-valued, `none` being `undefined`;
* the registry `rooms` is an association list in insertion order;
* a handler returns the registry after the call, the messages it emitted and
  a flag telling whether it ended in an uncaught `TypeError`.
-/

namespace WebSocketGame

/-! ## Data model -/

/-- The player markers: the string literals 'X', 'O', 'R', 'Y' of `server.js`. -/
inductive Symbol
| X
| O
| R
| Y
deriving DecidableEq, Repr

/-- A board cell: `none` is `null`, `some s` is the marker `s`. -/
abbrev Cell := Option Symbol

/-- The value of `room.board`: the 9-cell array of 'morpion', the array of rows
of 'puissance4', or `undefined` (what `initBoard` returns for any other
`gameType`). -/
inductive Board
| cells (b : List Cell)
| grid (g : List (List Cell))
| undefined
deriving DecidableEq, Repr

/-- An entry of `room.players`: `{ id, username, symbol }`. -/
structure Player where
  id : String
  username : String
  symbol : Symbol
deriving DecidableEq, Repr

/-- An entry of `room.chat`: `{ sender, message }`. -/
structure ChatEntry where
  sender : String
  message : String
deriving DecidableEq, Repr

/-- A value of the `rooms` object:
`{ gameType, players, board, currentPlayer, chat, started }`. -/
structure Room where
  gameType : String
  players : List Player
  board : Board
  currentPlayer : Int
  chat : List ChatEntry
  started : Bool
deriving DecidableEq, Repr

/-- The `rooms` object, keyed by room identifier, in insertion order. -/
abbrev Rooms := List (String × Room)

/-- The rooms stored under `roomId`: the own property `rooms[roomId]`. A read
`rooms[roomId]` that finds no own property falls back on `Object.prototype`,
see `inheritedKeys`. -/
def Rooms.get : Rooms → String → Option Room
| [], _ => none
| (k, r) :: rest, roomId => if k = roomId then some r else Rooms.get rest roomId

/-- Property write `rooms[roomId] = room`: an existing key keeps its place, a
new key is added last. -/
def Rooms.put : Rooms → String → Room → Rooms
| [], roomId, room => [(roomId, room)]
| (k, r) :: rest, roomId, room =>
    if k = roomId then (k, room) :: rest else (k, r) :: Rooms.put rest roomId room

/-- The property names the object literal `rooms = {}` inherits from
`Object.prototype`. When `rooms` has no own property of that name,
`rooms[roomId]` reads the inherited value, a function (or `Object.prototype`
itself for '__proto__'): it is truthy and has neither `started` nor `players`. -/
def inheritedKeys : List String :=
  ["constructor", "__defineGetter__", "__defineSetter__", "hasOwnProperty",
   "__lookupGetter__", "__lookupSetter__", "isPrototypeOf", "propertyIsEnumerable",
   "toString", "valueOf", "__proto__", "toLocaleString"]

/-- Array read `arr[i]` for a number `i` sent by a client or held in
`currentPlayer`: `none` (`undefined`) outside the array. -/
def jsGet {α : Type} (arr : List α) (i : Int) : Option α :=
  if i < 0 then none else arr[i.toNat]?

/-- Grid read `board[r][c]` with the loop counters of `checkWin`. -/
def cellAt (g : List (List Cell)) (r c : Nat) : Option Cell :=
  match g[r]? with
  | none => none
  | some row => row[c]?

/-- Grid read `board[row][col]` where `col` is the client's `index`. -/
def cellAtCol (g : List (List Cell)) (r : Nat) (col : Int) : Option Cell :=
  match g[r]? with
  | none => none
  | some row => jsGet row col

/-- Grid write `board[row][col] = symbol`, used on a cell that was read as
`null`, hence inside the grid. -/
def setCell (g : List (List Cell)) (r : Nat) (col : Int) (symbol : Symbol) :
    List (List Cell) :=
  match g[r]? with
  | none => g
  | some row => g.set r (row.set col.toNat (some symbol))

/-! ## Board engine -/

/-- `initBoard(gameType)`. -/
def initBoard (gameType : String) : Board :=
  if gameType = "morpion" then Board.cells (List.replicate 9 none)
  else if gameType = "puissance4" then
    Board.grid (List.replicate 6 (List.replicate 7 none))
  else Board.undefined

/-- The 'puissance4' branch of `isValidMove`:
`room.board.some(row => row[col] === null)`. -/
def isValidColumn (g : List (List Cell)) (col : Int) : Bool :=
  g.any fun row => decide (jsGet row col = some none)

/-- `isValidMove(room, index)`; `none` is the `undefined` returned for a
`gameType` that is neither 'morpion' nor 'puissance4'. A board whose shape does
not fit `gameType` is never stored by the handlers; the embedding answers
`false` there. -/
def isValidMove (room : Room) (index : Int) : Option Bool :=
  if room.gameType = "morpion" then
    match room.board with
    | Board.cells b => some (decide (jsGet b index = some none))
    | _ => some false
  else if room.gameType = "puissance4" then
    match room.board with
    | Board.grid g => some (isValidColumn g index)
    | _ => some false
  else none

/-- The loop `for (let row = 5; row >= 0; row--)` of `applyMove`, with
`n = row + 1` rows still to visit: the first `null` cell met is written and the
loop stops. -/
def dropFrom (g : List (List Cell)) (col : Int) (symbol : Symbol) :
    Nat → List (List Cell)
| 0 => g
| n + 1 =>
    if cellAtCol g n col = some none then setCell g n col symbol
    else dropFrom g col symbol n

/-- The 'puissance4' branch of `applyMove`. -/
def dropColumn (g : List (List Cell)) (col : Int) (symbol : Symbol) :
    List (List Cell) :=
  dropFrom g col symbol 6

/-- `applyMove(room, index)`; `none` is the `TypeError` of reading `.symbol` of
an `undefined` `room.players[room.currentPlayer]`. The handler calls it only
after `isValidMove`, so the 'morpion' write `board[index] = symbol` lands on an
existing cell; outside the array the embedding leaves the board as it is. -/
def applyMove (room : Room) (index : Int) : Option Room :=
  match jsGet room.players room.currentPlayer with
  | none => none
  | some p =>
    if room.gameType = "morpion" then
      match room.board with
      | Board.cells b =>
          if index < 0 then some room
          else some { room with board := Board.cells (b.set index.toNat (some p.symbol)) }
      | _ => some room
    else if room.gameType = "puissance4" then
      match room.board with
      | Board.grid g => some { room with board := Board.grid (dropColumn g index p.symbol) }
      | _ => some room
    else some room

/-- What `checkWin` returns: `undefined`, `null`, a boolean or a marker. -/
inductive Winner
| undefined
| null
| bool (b : Bool)
| symbol (s : Symbol)
deriving DecidableEq, Repr

/-- JavaScript truthiness of the value tested by `if (winner)`. -/
def Winner.truthy : Winner → Bool
| Winner.undefined => false
| Winner.null => false
| Winner.bool b => b
| Winner.symbol _ => true

/-- The constant `wins` of `checkWin`. -/
def wins : List (Nat × Nat × Nat) :=
  [(0, 1, 2), (3, 4, 5), (6, 7, 8), (0, 3, 6), (1, 4, 7), (2, 5, 8), (0, 4, 8), (2, 4, 6)]

/-- The callback of `wins.some`:
`board[a] && board[a] === board[b] && board[b] === board[c]`, as a boolean. -/
def comboWins (b : List Cell) (combo : Nat × Nat × Nat) : Bool :=
  match b[combo.1]? with
  | some (some s) =>
      decide (b[combo.2.1]? = some (some s)) && decide (b[combo.2.2]? = b[combo.2.1]?)
  | _ => false

/-- The body of the double loop of `checkWin` at the cell `(r, c)`: the marker
returned there, if any. -/
def winAt (g : List (List Cell)) (r c : Nat) : Option Symbol :=
  match cellAt g r c with
  | some (some s) =>
      if c ≤ 3 ∧ cellAt g r (c + 1) = some (some s) ∧ cellAt g r (c + 2) = some (some s)
          ∧ cellAt g r (c + 3) = some (some s) then some s
      else if r ≤ 2 ∧ cellAt g (r + 1) c = some (some s) ∧ cellAt g (r + 2) c = some (some s)
          ∧ cellAt g (r + 3) c = some (some s) then some s
      else if r ≤ 2 ∧ c ≤ 3 ∧ cellAt g (r + 1) (c + 1) = some (some s)
          ∧ cellAt g (r + 2) (c + 2) = some (some s)
          ∧ cellAt g (r + 3) (c + 3) = some (some s) then some s
      else if r ≤ 2 ∧ c ≥ 3 ∧ cellAt g (r + 1) (c - 1) = some (some s)
          ∧ cellAt g (r + 2) (c - 2) = some (some s)
          ∧ cellAt g (r + 3) (c - 3) = some (some s) then some s
      else none
  | _ => none

/-- The cells visited by `for r < 6, for c < 7`, in order. -/
def scanOrder : List (Nat × Nat) :=
  (List.range 6).flatMap fun r => (List.range 7).map fun c => (r, c)

/-- The 'puissance4' branch of `checkWin`: the first marker returned by the
scan, or `none` for the final `return null`. -/
def checkWinGrid (g : List (List Cell)) : Option Symbol :=
  scanOrder.findSome? fun rc => winAt g rc.1 rc.2

/-- `checkWin(room)`. The 'morpion' branch returns the boolean of `wins.some`;
the 'puissance4' branch returns a marker or `null`; any other `gameType` falls
off the end (`undefined`). -/
def checkWin (room : Room) : Winner :=
  if room.gameType = "morpion" then
    match room.board with
    | Board.cells b => Winner.bool (wins.any (comboWins b))
    | _ => Winner.bool false
  else if room.gameType = "puissance4" then
    match room.board with
    | Board.grid g =>
        match checkWinGrid g with
        | some s => Winner.symbol s
        | none => Winner.null
    | _ => Winner.null
  else Winner.undefined

/-- `isDraw(room)`; `none` is `undefined`. -/
def isDraw (room : Room) : Option Bool :=
  if room.gameType = "morpion" then
    match room.board with
    | Board.cells b => some (b.all fun cell => decide (cell ≠ none))
    | _ => some false
  else if room.gameType = "puissance4" then
    match room.board with
    | Board.grid g => some (g.all fun row => row.all fun cell => decide (cell ≠ none))
    | _ => some false
  else none

/-- `resetRoom(room)`. -/
def resetRoom (room : Room) : Room :=
  { room with board := initBoard room.gameType, currentPlayer := 0, started := false }

/-- Truthiness of an optional boolean (`undefined` is falsy). -/
def truthy : Option Bool → Bool
| some b => b
| none => false

/-! ## Messages -/

/-- Addressee of an emitted message: `socket.emit`, `io.to(roomId).emit`,
`io.emit`. -/
inductive Target
| socket (id : String)
| room (roomId : String)
| all
deriving DecidableEq, Repr

/-- The events emitted by the server, with their payloads. -/
inductive Msg
| roomsList (summary : List (String × String × Nat))
| joinedRoom (roomId username : String) (symbol : Symbol)
| playerJoined (players : List (String × Symbol))
| startGame (currentPlayer : Option Symbol)
| error (text : String)
| move (index : Int) (symbol : Symbol)
| win (winner : Winner)
| draw
| turn (currentPlayer : Symbol)
| chat (sender message : String)
| playerLeft
deriving DecidableEq, Repr

/-- What a handler leaves behind: the registry, the messages emitted in order,
and whether it stopped on an uncaught `TypeError`. -/
structure Result where
  rooms : Rooms
  out : List (Target × Msg)
  threw : Bool
deriving DecidableEq, Repr

/-- The payload of 'roomsList': `{ id, gameType, playerCount }` per room. -/
def roomsSummary (rooms : Rooms) : List (String × String × Nat) :=
  rooms.map fun kr => (kr.1, kr.2.gameType, kr.2.players.length)

/-! ## Socket handlers -/

/-- Handler of 'createRoom' on the socket `sid`; `roomId` stands for the value
of `Math.random().toString(36).substring(7)`, a short string of digits and
lower-case letters. -/
def createRoom (rooms : Rooms) (sid roomId username gameType : String) : Result :=
  let symbol := if gameType = "morpion" then Symbol.X else Symbol.R
  let room : Room :=
    { gameType := gameType
      players := [{ id := sid, username := username, symbol := symbol }]
      board := initBoard gameType
      currentPlayer := 0
      chat := []
      started := false }
  let rooms1 := rooms.put roomId room
  { rooms := rooms1
    out := [(Target.socket sid, Msg.joinedRoom roomId username symbol),
            (Target.all, Msg.roomsList (roomsSummary rooms1))]
    threw := false }

/-- Handler of 'joinRoom' on the socket `sid`. When `roomId` names an inherited
property, `room` is truthy and `room.players` is `undefined`: reading `.length`
ends in a `TypeError` before anything is emitted. -/
def joinRoom (rooms : Rooms) (sid roomId username : String) : Result :=
  match rooms.get roomId with
  | none =>
      if roomId ∈ inheritedKeys then { rooms := rooms, out := [], threw := true }
      else
        { rooms := rooms, out := [(Target.socket sid, Msg.error "Room pleine ou inexistante")],
          threw := false }
  | some room =>
    if room.players.length < 2 then
      let symbol := if room.gameType = "morpion" then Symbol.O else Symbol.Y
      let room1 : Room :=
        { room with players := room.players ++ [{ id := sid, username := username, symbol := symbol }] }
      let joined : List (Target × Msg) :=
        [(Target.socket sid, Msg.joinedRoom roomId username symbol),
         (Target.room roomId,
            Msg.playerJoined (room1.players.map fun p => (p.username, p.symbol)))]
      if room1.players.length = 2 then
        { rooms := rooms.put roomId { room1 with started := true }
          out := joined ++
            [(Target.room roomId, Msg.startGame (room1.players.head?.map fun p => p.symbol))]
          threw := false }
      else
        { rooms := rooms.put roomId room1, out := joined, threw := false }
    else
      { rooms := rooms, out := [(Target.socket sid, Msg.error "Room pleine ou inexistante")],
        threw := false }

/-- Handler of 'move' on the socket `sid`. When `roomId` names an inherited
property, `room.started` is `undefined` and the guard fails as it does for an
unknown room. -/
def move (rooms : Rooms) (sid roomId : String) (index : Int) : Result :=
  match rooms.get roomId with
  | none => { rooms := rooms, out := [], threw := false }
  | some room =>
    if room.started then
      match jsGet room.players room.currentPlayer with
      | none => { rooms := rooms, out := [], threw := true }
      | some p =>
        if p.id = sid then
          if truthy (isValidMove room index) then
            match applyMove room index with
            | none => { rooms := rooms, out := [], threw := true }
            | some room1 =>
              let moved : Target × Msg := (Target.room roomId, Msg.move index p.symbol)
              let winner := checkWin room1
              if winner.truthy then
                { rooms := rooms.put roomId (resetRoom room1)
                  out := [moved, (Target.room roomId, Msg.win winner)]
                  threw := false }
              else if truthy (isDraw room1) then
                { rooms := rooms.put roomId (resetRoom room1)
                  out := [moved, (Target.room roomId, Msg.draw)]
                  threw := false }
              else
                let room2 : Room := { room1 with currentPlayer := 1 - room1.currentPlayer }
                match jsGet room2.players room2.currentPlayer with
                | none => { rooms := rooms.put roomId room2, out := [moved], threw := true }
                | some q =>
                  { rooms := rooms.put roomId room2
                    out := [moved, (Target.room roomId, Msg.turn q.symbol)]
                    threw := false }
          else { rooms := rooms, out := [], threw := false }
        else { rooms := rooms, out := [], threw := false }
    else { rooms := rooms, out := [], threw := false }

/-- Handler of 'chat' on the socket `sid`. When `roomId` names an inherited
property, `room` is truthy and `room.players` is `undefined`: calling `.find`
ends in a `TypeError`. -/
def chat (rooms : Rooms) (sid roomId message : String) : Result :=
  match rooms.get roomId with
  | none =>
      if roomId ∈ inheritedKeys then { rooms := rooms, out := [], threw := true }
      else { rooms := rooms, out := [], threw := false }
  | some room =>
    let sender :=
      match room.players.find? fun p => decide (p.id = sid) with
      | some p => if p.username = "" then "Anonyme" else p.username
      | none => "Anonyme"
    { rooms := rooms.put roomId { room with chat := room.chat ++ [{ sender := sender, message := message }] }
      out := [(Target.room roomId, Msg.chat sender message)]
      threw := false }

/-- The loop `for (const roomId in rooms)` of the 'disconnect' handler over the
entries still to visit: the registry kept and the messages emitted. -/
def disconnectLoop (sid : String) : Rooms → Rooms × List (Target × Msg)
| [] => ([], [])
| (roomId, room) :: rest =>
    let room1 : Room := { room with players := room.players.filter fun p => decide (p.id ≠ sid) }
    let tail := disconnectLoop sid rest
    if room1.players.length < 2 then
      if room1.players.length = 0 then
        (tail.1, (Target.room roomId, Msg.playerLeft) :: tail.2)
      else ((roomId, room1) :: tail.1, (Target.room roomId, Msg.playerLeft) :: tail.2)
    else ((roomId, room1) :: tail.1, tail.2)

/-- Handler of 'disconnect' on the socket `sid`. -/
def disconnect (rooms : Rooms) (sid : String) : Result :=
  let done := disconnectLoop sid rooms
  { rooms := done.1
    out := done.2 ++ [(Target.all, Msg.roomsList (roomsSummary done.1))]
    threw := false }

/-! ## Specification vocabulary for the 'puissance4' engine -/

/-- Shape of a 'puissance4' board: 6 rows of 7 cells. -/
def IsGrid (g : List (List Cell)) : Prop :=
  g.length = 6 ∧ ∀ row ∈ g, row.length = 7

instance (g : List (List Cell)) : Decidable (IsGrid g) := by
  unfold IsGrid; infer_instance

/-- Every cell of the grid is `null`, 'R' or 'Y'. -/
def RYCells (g : List (List Cell)) : Prop :=
  ∀ row ∈ g, ∀ cell ∈ row, cell = none ∨ cell = some Symbol.R ∨ cell = some Symbol.Y

instance (g : List (List Cell)) : Decidable (RYCells g) := by
  unfold RYCells; infer_instance

/-- The four directions of a line, as (row step, column step): horizontal,
vertical and the two diagonals. -/
def directions : List (Int × Int) := [(0, 1), (1, 0), (1, 1), (1, -1)]

/-- The cell at integer coordinates, `none` outside the grid. -/
def gridAt (g : List (List Cell)) (r c : Int) : Option Cell :=
  if r < 0 ∨ c < 0 then none else cellAt g r.toNat c.toNat

/-- The grid holds four cells of marker `s` in a line: from some cell, four
steps in one of the directions stay inside the grid and read `s`. -/
def HasLine (g : List (List Cell)) (s : Symbol) : Prop :=
  ∃ r : Nat, r < 6 ∧ ∃ c : Nat, c < 7 ∧ ∃ d ∈ directions, ∀ k : Nat, k < 4 →
    gridAt g ((r : Int) + (k : Int) * d.1) ((c : Int) + (k : Int) * d.2) = some (some s)

instance (g : List (List Cell)) (s : Symbol) : Decidable (HasLine g s) := by
  unfold HasLine; infer_instance

/-- A grid with a diagonal line of four 'R' and lines of three 'Y'. -/
def gridDiagonalR : List (List Cell) :=
  [[none, none, none, none, none, none, none],
   [none, none, none, none, none, none, none],
   [none, none, none, some Symbol.R, none, none, none],
   [none, none, some Symbol.R, some Symbol.Y, none, none, none],
   [none, some Symbol.R, some Symbol.Y, some Symbol.Y, none, none, none],
   [some Symbol.R, some Symbol.Y, some Symbol.Y, some Symbol.Y, some Symbol.R, none, none]]

/-- A grid with lines of three and no line of four. -/
def gridThrees : List (List Cell) :=
  [[none, none, none, none, none, none, none],
   [none, none, none, none, none, none, none],
   [none, none, none, none, none, none, none],
   [some Symbol.R, none, some Symbol.Y, none, none, none, none],
   [some Symbol.R, some Symbol.Y, some Symbol.R, none, none, none, none],
   [some Symbol.R, some Symbol.Y, some Symbol.Y, some Symbol.Y, some Symbol.R, none, none]]

/-- A 'puissance4' room holding the grid `g`. -/
def roomOfGrid (g : List (List Cell)) : Room :=
  { gameType := "puissance4"
    players := [{ id := "a", username := "A", symbol := Symbol.R },
                { id := "b", username := "B", symbol := Symbol.Y }]
    board := Board.grid g
    currentPlayer := 0
    chat := []
    started := true }

/-! ## Sample runs -/

/-- Runs 'move' actions `(socket, roomId, index)` in order and keeps the
registry. -/
def runMoves (rooms : Rooms) : List (String × String × Int) → Rooms
| [] => rooms
| (sid, roomId, index) :: rest => runMoves (move rooms sid roomId index).rooms rest

/-- The registry after socket "a" created the 'morpion' room "room1" as "A" and
socket "b" joined it as "B". -/
def morpionStart : Rooms :=
  (joinRoom (createRoom [] "a" "room1" "A" "morpion").rooms "b" "room1" "B").rooms

/-- The registry after A played 4, B played 0, A played 1 and B played 3. -/
def morpionAfterFour : Rooms :=
  runMoves morpionStart [("a", "room1", 4), ("b", "room1", 0), ("a", "room1", 1), ("b", "room1", 3)]

/-- A 'morpion' room holding the cells `b`, 'X' to move. -/
def roomOfCells (b : List Cell) : Room :=
  { gameType := "morpion"
    players := [{ id := "a", username := "A", symbol := Symbol.X },
                { id := "b", username := "B", symbol := Symbol.O }]
    board := Board.cells b
    currentPlayer := 0
    chat := []
    started := true }

/-- The registry after the fifth move, A playing 7 and completing [1, 4, 7]. -/
def morpionAfterWin : Rooms :=
  (move morpionAfterFour "a" "room1" 7).rooms

/-! ## Specification vocabulary for columns -/

/-- Number of `null` cells of column `col`. -/
def emptyInColumn (g : List (List Cell)) (col : Int) : Nat :=
  g.countP fun row => decide (jsGet row col = some none)

/-- Successive drops of the markers `syms` into column `col`. -/
def dropAll (g : List (List Cell)) (col : Int) : List Symbol → List (List Cell)
| [] => g
| s :: rest => dropAll (dropColumn g col s) col rest

/-- A grid whose column 3 holds two markers, 'R' to move. -/
def gridColumnThree : List (List Cell) :=
  [[none, none, none, none, none, none, none],
   [none, none, none, none, none, none, none],
   [none, none, none, none, none, none, none],
   [none, none, none, none, none, none, none],
   [none, none, none, some Symbol.Y, none, none, none],
   [none, none, none, some Symbol.R, none, none, none]]

/-! ## Specification vocabulary for 'morpion' -/

/-- Number of cells of `b` holding the marker `s`. -/
def countSymbol (b : List Cell) (s : Symbol) : Nat :=
  b.countP fun cell => decide (cell = some s)

/-- Alternation invariant of a 'morpion' room: 'X' sits at index 0 and 'O' at
index 1, and the board holds as many 'X' as 'O' when index 0 is to move, one
more 'X' when index 1 is to move. -/
def Alternates (room : Room) : Prop :=
  room.gameType = "morpion" ∧
  (∃ pa pb : Player, room.players = [pa, pb] ∧ pa.symbol = Symbol.X ∧ pb.symbol = Symbol.O) ∧
  ∃ cells, room.board = Board.cells cells ∧
    ((room.currentPlayer = 0 ∧ countSymbol cells Symbol.X = countSymbol cells Symbol.O) ∨
     (room.currentPlayer = 1 ∧ countSymbol cells Symbol.X = countSymbol cells Symbol.O + 1))

/-! ## Runs of the server -/

/-- An inbound event with the socket it arrives on. -/
inductive Action
| createRoom (sid roomId username gameType : String)
| joinRoom (sid roomId username : String)
| move (sid roomId : String) (index : Int)
| chat (sid roomId message : String)
| disconnect (sid : String)
deriving DecidableEq, Repr

/-- Dispatch of one event to its handler. -/
def step (rooms : Rooms) : Action → Result
| Action.createRoom sid roomId username gameType => createRoom rooms sid roomId username gameType
| Action.joinRoom sid roomId username => joinRoom rooms sid roomId username
| Action.move sid roomId index => move rooms sid roomId index
| Action.chat sid roomId message => chat rooms sid roomId message
| Action.disconnect sid => disconnect rooms sid

/-- The registry after the events were handled in order; `none` once a handler
ended in an uncaught `TypeError` (the process stops there). -/
def run : Rooms → List Action → Option Rooms
| rooms, [] => some rooms
| rooms, a :: rest => if (step rooms a).threw then none else run (step rooms a).rooms rest

/-- The registries the server can hold between two events, starting from
`let rooms = {}`. -/
def Reachable (rooms : Rooms) : Prop :=
  ∃ actions : List Action, run [] actions = some rooms

/-- A and B play in "room1", then B (socket "b") leaves before any move. -/
def traceLeaveAtStart : List Action :=
  [Action.createRoom "a" "room1" "A" "morpion", Action.joinRoom "b" "room1" "B",
   Action.disconnect "b"]

/-- A and B play in "room1"; A plays 4, so that index 1 is to move; then B
(socket "b") leaves. -/
def traceLeaveAfterMove : List Action :=
  [Action.createRoom "a" "room1" "A" "morpion", Action.joinRoom "b" "room1" "B",
   Action.move "a" "room1" 4, Action.disconnect "b"]

/-- A and B play in "room1"; the creator A (socket "a") leaves. -/
def traceCreatorLeaves : List Action :=
  [Action.createRoom "a" "room1" "A" "morpion", Action.joinRoom "b" "room1" "B",
   Action.disconnect "a"]

/-- A and B play 'puissance4' in "room2": A drops in column 3, then B drops in
column 3. -/
def tracePuissance4 : List Action :=
  [Action.createRoom "a" "room2" "A" "puissance4", Action.joinRoom "b" "room2" "B",
   Action.move "a" "room2" 3, Action.move "b" "room2" 3]

/-- The registry after `tracePuissance4`. -/
def puissance4AfterTwo : Rooms :=
  [("room2", roomOfGrid gridColumnThree)]

/-! ## Specification vocabulary for the registry -/

/-- The players of a room once the socket `sid` is removed:
`room.players.filter(p => p.id !== socket.id)`. -/
def playersWithout (room : Room) (sid : String) : List Player :=
  room.players.filter fun p => decide (p.id ≠ sid)

/-- What the 'disconnect' of `sid` leaves of one registry entry: nothing when
no other player remains, else the room with the other players. -/
def withoutPlayer (sid : String) (entry : String × Room) : Option (String × Room) :=
  if playersWithout entry.2 sid = [] then none
  else some (entry.1, { entry.2 with players := playersWithout entry.2 sid })

/-- The cell `(r, c)` is empty when it lies above the empty cell `(r1, c)`. -/
def EmptyAbove (g : List (List Cell)) (r1 r c : Nat) : Prop :=
  r < r1 → cellAt g r1 c = some none → (cellAt g r c).join = none

instance (g : List (List Cell)) (r1 r c : Nat) : Decidable (EmptyAbove g r1 r c) := by
  unfold EmptyAbove; infer_instance

/-- Every cell above an empty cell of a column is empty too, so that no marker
sits above an empty cell (row 0 is the top row). -/
def Settled (g : List (List Cell)) : Prop :=
  ∀ r1, r1 < 6 → ∀ r, r < 6 → ∀ c, c < 7 → EmptyAbove g r1 r c

instance (g : List (List Cell)) : Decidable (Settled g) := by
  unfold Settled; infer_instance

/-- Drops `(column, marker)` in order, each on a column for which the
'puissance4' branch of `isValidMove` holds; `none` if one of them is not
valid. -/
def playDrops (g : List (List Cell)) : List (Int × Symbol) → Option (List (List Cell))
| [] => some g
| (col, s) :: rest =>
    if isValidColumn g col then playDrops (dropColumn g col s) rest else none

/-- What holds of the board of a 'puissance4' room between two events: a 6x7
grid without a line of four. -/
def BoardOk (room : Room) : Prop :=
  room.gameType = "puissance4" →
    ∃ g, room.board = Board.grid g ∧ IsGrid g ∧ ∀ s : Symbol, ¬ HasLine g s

/-! ## `checkWin` on a 'puissance4' board -/

theorem cellAt_bounds {g : List (List Cell)} (hg : IsGrid g) {r c : Nat} {x : Cell}
    (h : cellAt g r c = some x) : r < 6 ∧ c < 7 := by
  unfold cellAt at h
  cases hr : g[r]? with
  | none => simp [hr] at h
  | some row =>
    simp only [hr] at h
    have hrlt : r < g.length := (List.getElem?_eq_some_iff.mp hr).1
    have hmem : row ∈ g := List.getElem?_mem hr
    have hclt : c < row.length := (List.getElem?_eq_some_iff.mp h).1
    rw [hg.2 row hmem] at hclt
    rw [hg.1] at hrlt
    exact ⟨hrlt, hclt⟩

theorem gridAt_some {g : List (List Cell)} {r c : Int} {x : Cell}
    (h : gridAt g r c = some x) : 0 ≤ r ∧ 0 ≤ c ∧ cellAt g r.toNat c.toNat = some x := by
  unfold gridAt at h
  split at h
  · simp at h
  · rename_i hn
    push_neg at hn
    exact ⟨hn.1, hn.2, h⟩

theorem gridAt_natCast (g : List (List Cell)) (r c : Nat) :
    gridAt g (r : Int) (c : Int) = cellAt g r c := by
  unfold gridAt
  have h1 : ¬ ((r : Int) < 0 ∨ (c : Int) < 0) := by omega
  simp [h1]

theorem winAt_eq_some {g : List (List Cell)} {r c : Nat} {s : Symbol}
    (h : winAt g r c = some s) :
    cellAt g r c = some (some s) ∧
    ((c ≤ 3 ∧ cellAt g r (c + 1) = some (some s) ∧ cellAt g r (c + 2) = some (some s)
          ∧ cellAt g r (c + 3) = some (some s)) ∨
     (r ≤ 2 ∧ cellAt g (r + 1) c = some (some s) ∧ cellAt g (r + 2) c = some (some s)
          ∧ cellAt g (r + 3) c = some (some s)) ∨
     (r ≤ 2 ∧ c ≤ 3 ∧ cellAt g (r + 1) (c + 1) = some (some s)
          ∧ cellAt g (r + 2) (c + 2) = some (some s)
          ∧ cellAt g (r + 3) (c + 3) = some (some s)) ∨
     (r ≤ 2 ∧ c ≥ 3 ∧ cellAt g (r + 1) (c - 1) = some (some s)
          ∧ cellAt g (r + 2) (c - 2) = some (some s)
          ∧ cellAt g (r + 3) (c - 3) = some (some s))) := by
  unfold winAt at h
  split at h
  · rename_i t hc
    split_ifs at h with h1 h2 h3 h4
    all_goals first
      | (cases h; exact ⟨hc, Or.inl h1⟩)
      | (cases h; exact ⟨hc, Or.inr (Or.inl h2)⟩)
      | (cases h; exact ⟨hc, Or.inr (Or.inr (Or.inl h3))⟩)
      | (cases h; exact ⟨hc, Or.inr (Or.inr (Or.inr h4))⟩)
  · simp at h

theorem mem_scanOrder (r c : Nat) : (r, c) ∈ scanOrder ↔ r < 6 ∧ c < 7 := by
  unfold scanOrder
  simp [List.mem_flatMap]

theorem gridAt_eq (g : List (List Cell)) (a b : Int) (r c : Nat) (ha : a = r) (hb : b = c) :
    gridAt g a b = cellAt g r c := by
  subst ha hb
  exact gridAt_natCast g r c

theorem hasLine_of_winAt {g : List (List Cell)} {r c : Nat} {s : Symbol}
    (hr : r < 6) (hc : c < 7) (h : winAt g r c = some s) : HasLine g s := by
  obtain ⟨h0, hcase⟩ := winAt_eq_some h
  rcases hcase with ⟨_, h1, h2, h3⟩ | ⟨_, h1, h2, h3⟩ | ⟨_, _, h1, h2, h3⟩ | ⟨_, hc3, h1, h2, h3⟩
  · refine ⟨r, hr, c, hc, (0, 1), by simp [directions], ?_⟩
    intro k hk
    interval_cases k
    · rw [gridAt_eq g _ _ r c (by simp) (by simp)]; exact h0
    · rw [gridAt_eq g _ _ r (c + 1) (by simp) (by simp)]; exact h1
    · rw [gridAt_eq g _ _ r (c + 2) (by simp) (by simp)]; exact h2
    · rw [gridAt_eq g _ _ r (c + 3) (by simp) (by simp)]; exact h3
  · refine ⟨r, hr, c, hc, (1, 0), by simp [directions], ?_⟩
    intro k hk
    interval_cases k
    · rw [gridAt_eq g _ _ r c (by simp) (by simp)]; exact h0
    · rw [gridAt_eq g _ _ (r + 1) c (by simp) (by simp)]; exact h1
    · rw [gridAt_eq g _ _ (r + 2) c (by simp) (by simp)]; exact h2
    · rw [gridAt_eq g _ _ (r + 3) c (by simp) (by simp)]; exact h3
  · refine ⟨r, hr, c, hc, (1, 1), by simp [directions], ?_⟩
    intro k hk
    interval_cases k
    · rw [gridAt_eq g _ _ r c (by simp) (by simp)]; exact h0
    · rw [gridAt_eq g _ _ (r + 1) (c + 1) (by simp) (by simp)]; exact h1
    · rw [gridAt_eq g _ _ (r + 2) (c + 2) (by simp) (by simp)]; exact h2
    · rw [gridAt_eq g _ _ (r + 3) (c + 3) (by simp) (by simp)]; exact h3
  · refine ⟨r, hr, c, hc, (1, -1), by simp [directions], ?_⟩
    intro k hk
    interval_cases k
    · rw [gridAt_eq g _ _ r c (by simp) (by simp)]; exact h0
    · rw [gridAt_eq g _ _ (r + 1) (c - 1) (by simp) (by simp; omega)]; exact h1
    · rw [gridAt_eq g _ _ (r + 2) (c - 2) (by simp) (by simp; omega)]; exact h2
    · rw [gridAt_eq g _ _ (r + 3) (c - 3) (by simp) (by simp; omega)]; exact h3

theorem cellAt_of_gridAt {g : List (List Cell)} (hg : IsGrid g) {r c : Int} {x : Cell}
    (h : gridAt g r c = some x) (r1 c1 : Nat) (hr : r = r1) (hc : c = c1) :
    r1 < 6 ∧ c1 < 7 ∧ cellAt g r1 c1 = some x := by
  subst hr hc
  rw [gridAt_natCast] at h
  obtain ⟨h6, h7⟩ := cellAt_bounds hg h
  exact ⟨h6, h7, h⟩

theorem winAt_of_hasLine {g : List (List Cell)} (hg : IsGrid g) {s : Symbol}
    (h : HasLine g s) : ∃ r c : Nat, r < 6 ∧ c < 7 ∧ winAt g r c = some s := by
  obtain ⟨r, hr, c, hc, d, hd, hline⟩ := h
  have k0 := hline 0 (by norm_num)
  have k1 := hline 1 (by norm_num)
  have k2 := hline 2 (by norm_num)
  have k3 := hline 3 (by norm_num)
  refine ⟨r, c, hr, hc, ?_⟩
  simp only [directions, List.mem_cons, List.mem_singleton, List.not_mem_nil, or_false] at hd
  have h0 : cellAt g r c = some (some s) := by
    have := cellAt_of_gridAt hg k0 r c (by simp) (by simp)
    exact this.2.2
  rcases hd with rfl | rfl | rfl | rfl
  · obtain ⟨_, b1, e1⟩ := cellAt_of_gridAt hg k1 r (c + 1) (by simp) (by push_cast; ring)
    obtain ⟨_, b2, e2⟩ := cellAt_of_gridAt hg k2 r (c + 2) (by simp) (by push_cast; ring)
    obtain ⟨_, b3, e3⟩ := cellAt_of_gridAt hg k3 r (c + 3) (by simp) (by push_cast; ring)
    have hc3 : c ≤ 3 := by omega
    simp [winAt, h0, hc3, e1, e2, e3]
  · obtain ⟨b1, _, e1⟩ := cellAt_of_gridAt hg k1 (r + 1) c (by push_cast; ring) (by simp)
    obtain ⟨b2, _, e2⟩ := cellAt_of_gridAt hg k2 (r + 2) c (by push_cast; ring) (by simp)
    obtain ⟨b3, _, e3⟩ := cellAt_of_gridAt hg k3 (r + 3) c (by push_cast; ring) (by simp)
    have hr2 : r ≤ 2 := by omega
    simp [winAt, h0, hr2, e1, e2, e3]
  · obtain ⟨_, _, e1⟩ := cellAt_of_gridAt hg k1 (r + 1) (c + 1) (by push_cast; ring) (by push_cast; ring)
    obtain ⟨_, _, e2⟩ := cellAt_of_gridAt hg k2 (r + 2) (c + 2) (by push_cast; ring) (by push_cast; ring)
    obtain ⟨b3, b3c, e3⟩ := cellAt_of_gridAt hg k3 (r + 3) (c + 3) (by push_cast; ring) (by push_cast; ring)
    have hr2 : r ≤ 2 := by omega
    have hc3 : c ≤ 3 := by omega
    simp [winAt, h0, hr2, hc3, e1, e2, e3]
  · obtain ⟨_, hc0, _⟩ := gridAt_some k3
    have hc3 : 3 ≤ c := by
      simp at hc0
      omega
    obtain ⟨_, _, e1⟩ := cellAt_of_gridAt hg k1 (r + 1) (c - 1) (by push_cast; ring)
      (by rw [Nat.cast_sub (by omega)]; push_cast; ring)
    obtain ⟨_, _, e2⟩ := cellAt_of_gridAt hg k2 (r + 2) (c - 2) (by push_cast; ring)
      (by rw [Nat.cast_sub (by omega)]; push_cast; ring)
    obtain ⟨b3, _, e3⟩ := cellAt_of_gridAt hg k3 (r + 3) (c - 3) (by push_cast; ring)
      (by rw [Nat.cast_sub (by omega)]; push_cast; ring)
    have hr2 : r ≤ 2 := by omega
    simp [winAt, h0, hr2, hc3, e1, e2, e3]

theorem hasLine_of_checkWinGrid {g : List (List Cell)} {s : Symbol}
    (h : checkWinGrid g = some s) : HasLine g s := by
  unfold checkWinGrid at h
  obtain ⟨rc, hmem, hw⟩ := List.exists_of_findSome?_eq_some h
  obtain ⟨r, c⟩ := rc
  rw [mem_scanOrder] at hmem
  exact hasLine_of_winAt hmem.1 hmem.2 hw

theorem checkWinGrid_ne_none {g : List (List Cell)} (hg : IsGrid g) {s : Symbol}
    (h : HasLine g s) : checkWinGrid g ≠ none := by
  obtain ⟨r, c, hr, hc, hw⟩ := winAt_of_hasLine hg h
  intro hnone
  unfold checkWinGrid at hnone
  rw [List.findSome?_eq_none_iff] at hnone
  have := hnone (r, c) ((mem_scanOrder r c).mpr ⟨hr, hc⟩)
  simp [hw] at this

theorem hasLine_symbol {g : List (List Cell)} (hg : IsGrid g) (ha : RYCells g) {s : Symbol}
    (h : HasLine g s) : s = Symbol.R ∨ s = Symbol.Y := by
  obtain ⟨r, c, _, _, hw⟩ := winAt_of_hasLine hg h
  have h0 := (winAt_eq_some hw).1
  unfold cellAt at h0
  cases hr : g[r]? with
  | none => simp [hr] at h0
  | some row =>
    simp only [hr] at h0
    have := ha row (List.getElem?_mem hr) (some s) (List.getElem?_mem h0)
    simpa using this

/-- C1: on a 6x7 'puissance4' board with cells `null`, 'R' or 'Y': if the board
holds a line of four cells of marker `s` (horizontal, vertical or diagonal,
inside the board) and no such line of the other marker, `checkWin` returns `s`;
if it holds no line of four, `checkWin` returns `null`. -/
theorem checkWin_puissance4 (room : Room) (g : List (List Cell))
    (hgt : room.gameType = "puissance4") (hb : room.board = Board.grid g)
    (hg : IsGrid g) (ha : RYCells g) :
    (∀ s t : Symbol, (s = Symbol.R ∧ t = Symbol.Y) ∨ (s = Symbol.Y ∧ t = Symbol.R) →
        HasLine g s → ¬ HasLine g t → checkWin room = Winner.symbol s) ∧
    ((∀ s : Symbol, ¬ HasLine g s) → checkWin room = Winner.null) := by
  have hne : room.gameType ≠ "morpion" := by rw [hgt]; decide
  constructor
  · intro s t hst hs ht
    cases hw : checkWinGrid g with
    | none => exact absurd hw (checkWinGrid_ne_none hg hs)
    | some u =>
      have hu := hasLine_of_checkWinGrid hw
      have hu2 := hasLine_symbol hg ha hu
      have hus : u = s := by
        rcases hst with ⟨rfl, rfl⟩ | ⟨rfl, rfl⟩
        · rcases hu2 with rfl | rfl
          · rfl
          · exact absurd hu ht
        · rcases hu2 with rfl | rfl
          · exact absurd hu ht
          · rfl
      simp [checkWin, hne, hgt, hb, hw, hus]
  · intro hno
    cases hw : checkWinGrid g with
    | none => simp [checkWin, hne, hgt, hb, hw]
    | some u => exact absurd (hasLine_of_checkWinGrid hw) (hno u)

theorem checkWin_puissance4_witness :
    checkWin (roomOfGrid gridDiagonalR) = Winner.symbol Symbol.R ∧
    checkWin (roomOfGrid gridThrees) = Winner.null :=
  ⟨(checkWin_puissance4 (roomOfGrid gridDiagonalR) gridDiagonalR rfl rfl (by decide)
      (by decide)).1 Symbol.R Symbol.Y (Or.inl ⟨rfl, rfl⟩) (by decide) (by decide),
   (checkWin_puissance4 (roomOfGrid gridThrees) gridThrees rfl rfl (by decide)
      (by decide)).2 (fun s => by cases s <;> decide)⟩

/-! ## The registry -/

theorem Rooms.get_put_self (rooms : Rooms) (roomId : String) (room : Room) :
    (rooms.put roomId room).get roomId = some room := by
  induction rooms with
  | nil => simp [Rooms.put, Rooms.get]
  | cons kr rest ih =>
    obtain ⟨k, r⟩ := kr
    by_cases h : k = roomId
    · simp [Rooms.put, Rooms.get, h]
    · simp [Rooms.put, Rooms.get, h, ih]

theorem Rooms.get_put_ne (rooms : Rooms) (roomId other : String) (room : Room)
    (h : roomId ≠ other) : (rooms.put roomId room).get other = rooms.get other := by
  induction rooms with
  | nil => simp [Rooms.put, Rooms.get, h]
  | cons kr rest ih =>
    obtain ⟨k, r⟩ := kr
    by_cases hk : k = roomId
    · subst hk
      simp [Rooms.put, Rooms.get, h]
    · by_cases hk2 : k = other
      · subst hk2
        simp [Rooms.put, Rooms.get, hk]
      · simp [Rooms.put, Rooms.get, hk, hk2, ih]

/-! ## `checkWin` on a 'morpion' board -/

/-- C2 (evaluation of the code): in the 'morpion' room created by A and joined by
B, after A played 4, B 0, A 1 and B 3, the move 7 of A completes the line
[1, 4, 7]; `checkWin` returns the boolean `true` and the 'win' message carries
`true`, not the marker 'X'. -/
theorem checkWin_morpion_returns_boolean :
    checkWin (roomOfCells [some Symbol.O, some Symbol.X, none, some Symbol.O, some Symbol.X,
      none, none, some Symbol.X, none]) = Winner.bool true ∧
    (move morpionAfterFour "a" "room1" 7).out =
      [(Target.room "room1", Msg.move 7 Symbol.X),
       (Target.room "room1", Msg.win (Winner.bool true))] := by
  constructor <;> decide

theorem checkWin_morpion_never_symbol (room : Room) (hgt : room.gameType = "morpion")
    (s : Symbol) : checkWin room ≠ Winner.symbol s := by
  unfold checkWin
  rw [if_pos hgt]
  split <;> simp

/-! ## Rejected actions -/

/-- C3: in a started room (with two players, or any other number), a 'move' sent
by a connection whose id is not the id of `players[currentPlayer]` changes
nothing: the registry, and so the board, `currentPlayer`, `started`, `players`
and `chat` of the room, is the one before the call, for every index, and no
message is emitted. -/
theorem move_not_current_player (rooms : Rooms) (sid roomId : String) (index : Int)
    (room : Room) (p : Player) (hroom : rooms.get roomId = some room)
    (hstarted : room.started = true)
    (hp : jsGet room.players room.currentPlayer = some p) (hne : p.id ≠ sid) :
    move rooms sid roomId index = { rooms := rooms, out := [], threw := false } ∧
    (move rooms sid roomId index).rooms.get roomId = some room := by
  have h : move rooms sid roomId index = { rooms := rooms, out := [], threw := false } := by
    simp [move, hroom, hstarted, hp, hne]
  exact ⟨h, by rw [h]; exact hroom⟩

theorem move_not_current_player_witness :
    move morpionStart "b" "room1" 4 = { rooms := morpionStart, out := [], threw := false } ∧
    (move morpionStart "b" "room1" 4).rooms.get "room1" = morpionStart.get "room1" :=
  move_not_current_player morpionStart "b" "room1" 4
    { gameType := "morpion"
      players := [{ id := "a", username := "A", symbol := Symbol.X },
                  { id := "b", username := "B", symbol := Symbol.O }]
      board := Board.cells (List.replicate 9 none)
      currentPlayer := 0
      chat := []
      started := true }
    { id := "a", username := "A", symbol := Symbol.X } (by decide) rfl (by decide) (by decide)

/-- C6: on a room that already holds two players, 'joinRoom' from any connection
sends the error message to the caller and leaves the registry as it was: the
players list, board, `currentPlayer`, `started` and `chat` of the room are
unchanged. -/
theorem joinRoom_full (rooms : Rooms) (sid roomId username : String) (room : Room)
    (hroom : rooms.get roomId = some room) (htwo : room.players.length = 2) :
    joinRoom rooms sid roomId username =
      { rooms := rooms, out := [(Target.socket sid, Msg.error "Room pleine ou inexistante")],
        threw := false } ∧
    (joinRoom rooms sid roomId username).rooms.get roomId = some room := by
  have h : joinRoom rooms sid roomId username =
      { rooms := rooms, out := [(Target.socket sid, Msg.error "Room pleine ou inexistante")],
        threw := false } := by
    simp [joinRoom, hroom, htwo]
  exact ⟨h, by rw [h]; exact hroom⟩

theorem joinRoom_full_witness :
    joinRoom morpionStart "c" "room1" "C" =
      { rooms := morpionStart, out := [(Target.socket "c", Msg.error "Room pleine ou inexistante")],
        threw := false } ∧
    (joinRoom morpionStart "c" "room1" "C").rooms.get "room1" = morpionStart.get "room1" :=
  joinRoom_full morpionStart "c" "room1" "C"
    { gameType := "morpion"
      players := [{ id := "a", username := "A", symbol := Symbol.X },
                  { id := "b", username := "B", symbol := Symbol.O }]
      board := Board.cells (List.replicate 9 none)
      currentPlayer := 0
      chat := []
      started := true }
    (by decide) rfl

/-! ## `isValidMove` on a 'morpion' board -/

theorem jsGet_eq_some_iff {α : Type} (arr : List α) (i : Int) (x : α) :
    jsGet arr i = some x ↔ 0 ≤ i ∧ arr[i.toNat]? = some x := by
  unfold jsGet
  by_cases h : i < 0
  · simp [h]
  · simp [h]; omega

/-- C7: on a 'morpion' room with a 9-cell board, `isValidMove` returns `true`
exactly when the index is a cell position 0..8 and that cell is empty, and
`false` otherwise; on a full board it is `false` for every index. -/
theorem isValidMove_morpion (room : Room) (b : List Cell) (index : Int)
    (hgt : room.gameType = "morpion") (hb : room.board = Board.cells b)
    (hlen : b.length = 9) :
    (isValidMove room index = some true ↔
      (0 ≤ index ∧ index ≤ 8 ∧ b[index.toNat]? = some none)) ∧
    (isValidMove room index ≠ some true → isValidMove room index = some false) ∧
    ((∀ cell ∈ b, cell ≠ none) → isValidMove room index = some false) := by
  have hv : isValidMove room index = some (decide (jsGet b index = some none)) := by
    simp [isValidMove, hgt, hb]
  refine ⟨?_, ?_, ?_⟩
  · rw [hv]
    simp only [Option.some.injEq, decide_eq_true_eq, jsGet_eq_some_iff]
    constructor
    · rintro ⟨h0, hc⟩
      have hlt : index.toNat < b.length := (List.getElem?_eq_some_iff.mp hc).1
      exact ⟨h0, by omega, hc⟩
    · rintro ⟨h0, _, hc⟩
      exact ⟨h0, hc⟩
  · rw [hv]
    cases decide (jsGet b index = some none) <;> simp
  · intro hfull
    rw [hv]
    have : ¬ jsGet b index = some none := by
      rw [jsGet_eq_some_iff]
      rintro ⟨_, hc⟩
      exact hfull none (List.getElem?_mem hc) rfl
    simp [this]

theorem isValidMove_morpion_witness :
    (isValidMove (roomOfCells [some Symbol.O, some Symbol.X, none, some Symbol.O, some Symbol.X,
        none, none, some Symbol.X, none]) 2 = some true ↔
      ((0 : Int) ≤ 2 ∧ (2 : Int) ≤ 8 ∧
        [some Symbol.O, some Symbol.X, none, some Symbol.O, some Symbol.X,
          none, none, some Symbol.X, none][(2 : Int).toNat]? = some none)) ∧
    isValidMove (roomOfCells [some Symbol.X, some Symbol.O, some Symbol.X, some Symbol.X,
        some Symbol.O, some Symbol.O, some Symbol.O, some Symbol.X, some Symbol.X]) 9
      = some false :=
  ⟨(isValidMove_morpion (roomOfCells [some Symbol.O, some Symbol.X, none, some Symbol.O,
        some Symbol.X, none, none, some Symbol.X, none]) _ 2 rfl rfl rfl).1,
   (isValidMove_morpion (roomOfCells [some Symbol.X, some Symbol.O, some Symbol.X, some Symbol.X,
        some Symbol.O, some Symbol.O, some Symbol.O, some Symbol.X, some Symbol.X]) _ 9
      rfl rfl rfl).2.2 (by decide)⟩

/-! ## The 'move' handler -/

theorem applyMove_eq {room : Room} {p : Player} (index : Int)
    (hp : jsGet room.players room.currentPlayer = some p) :
    applyMove room index = some
      (if room.gameType = "morpion" then
        match room.board with
        | Board.cells b =>
            if index < 0 then room
            else { room with board := Board.cells (b.set index.toNat (some p.symbol)) }
        | _ => room
      else if room.gameType = "puissance4" then
        match room.board with
        | Board.grid g => { room with board := Board.grid (dropColumn g index p.symbol) }
        | _ => room
      else room) := by
  unfold applyMove
  rw [hp]
  simp only
  by_cases h1 : room.gameType = "morpion"
  · simp only [h1, if_true]
    cases room.board with
    | cells b => by_cases h3 : index < 0 <;> simp [h3]
    | grid g => rfl
    | undefined => rfl
  · simp only [h1, if_false]
    by_cases h2 : room.gameType = "puissance4"
    · simp only [h2, if_true]
      cases room.board <;> rfl
    · simp only [h2, if_false]

theorem applyMove_isSome {room : Room} {p : Player} (index : Int)
    (hp : jsGet room.players room.currentPlayer = some p) :
    ∃ room1, applyMove room index = some room1 :=
  ⟨_, applyMove_eq index hp⟩

theorem applyMove_frame {room room1 : Room} {index : Int} (h : applyMove room index = some room1) :
    room1.gameType = room.gameType ∧ room1.players = room.players ∧
    room1.currentPlayer = room.currentPlayer ∧ room1.chat = room.chat ∧
    room1.started = room.started := by
  cases hp : jsGet room.players room.currentPlayer with
  | none => simp [applyMove, hp] at h
  | some p =>
    rw [applyMove_eq index hp] at h
    injection h with h
    subst h
    by_cases h1 : room.gameType = "morpion" <;> by_cases h2 : room.gameType = "puissance4" <;>
      cases room.board <;> by_cases h3 : index < 0 <;> simp [h1, h2, h3]

/-- The three outcomes of an accepted move, after `applyMove` gave `room1`. -/
theorem move_accepted (rooms : Rooms) (sid roomId : String) (index : Int) (room room1 : Room)
    (p : Player) (hroom : rooms.get roomId = some room) (hstarted : room.started = true)
    (hp : jsGet room.players room.currentPlayer = some p) (hid : p.id = sid)
    (hvalid : truthy (isValidMove room index) = true)
    (happly : applyMove room index = some room1) :
    ((checkWin room1).truthy = true ∧
      move rooms sid roomId index =
        { rooms := rooms.put roomId (resetRoom room1)
          out := [(Target.room roomId, Msg.move index p.symbol),
                  (Target.room roomId, Msg.win (checkWin room1))]
          threw := false }) ∨
    ((checkWin room1).truthy = false ∧ truthy (isDraw room1) = true ∧
      move rooms sid roomId index =
        { rooms := rooms.put roomId (resetRoom room1)
          out := [(Target.room roomId, Msg.move index p.symbol), (Target.room roomId, Msg.draw)]
          threw := false }) ∨
    ((checkWin room1).truthy = false ∧ truthy (isDraw room1) = false ∧
      (move rooms sid roomId index).rooms =
        rooms.put roomId { room1 with currentPlayer := 1 - room1.currentPlayer } ∧
      (∀ w, (Target.room roomId, Msg.win w) ∉ (move rooms sid roomId index).out) ∧
      (Target.room roomId, Msg.draw) ∉ (move rooms sid roomId index).out) := by
  by_cases hw : (checkWin room1).truthy = true
  · left
    refine ⟨hw, ?_⟩
    simp [move, hroom, hstarted, hp, hid, hvalid, happly, hw]
  · simp only [Bool.not_eq_true] at hw
    by_cases hd : truthy (isDraw room1) = true
    · right; left
      refine ⟨hw, hd, ?_⟩
      simp [move, hroom, hstarted, hp, hid, hvalid, happly, hw, hd]
    · simp only [Bool.not_eq_true] at hd
      right; right
      refine ⟨hw, hd, ?_⟩
      simp only [move, hroom, hstarted, hp, hid, hvalid, happly, hw, hd, if_true]
      simp only [Bool.false_eq_true, if_false]
      split <;> simp

/-- What 'move' does to the registry: nothing, or, for an accepted move, the
room is replaced by the reset room or by the room with the turn passed. -/
theorem move_rooms_cases (rooms : Rooms) (sid roomId : String) (index : Int) :
    (move rooms sid roomId index).rooms = rooms ∨
    ∃ room p room1, rooms.get roomId = some room ∧ room.started = true ∧
      jsGet room.players room.currentPlayer = some p ∧ p.id = sid ∧
      truthy (isValidMove room index) = true ∧ applyMove room index = some room1 ∧
      (((checkWin room1).truthy = true ∨ truthy (isDraw room1) = true) ∧
          (move rooms sid roomId index).rooms = rooms.put roomId (resetRoom room1) ∨
       ((checkWin room1).truthy = false ∧ truthy (isDraw room1) = false ∧
          (move rooms sid roomId index).rooms =
            rooms.put roomId { room1 with currentPlayer := 1 - room1.currentPlayer })) := by
  cases hroom : rooms.get roomId with
  | none => left; simp [move, hroom]
  | some room =>
    by_cases hs : room.started = true
    swap
    · left; simp [move, hroom, hs]
    cases hp : jsGet room.players room.currentPlayer with
    | none => left; simp [move, hroom, hs, hp]
    | some p =>
      by_cases hid : p.id = sid
      swap
      · left; simp [move, hroom, hs, hp, hid]
      by_cases hv : truthy (isValidMove room index) = true
      swap
      · left; simp [move, hroom, hs, hp, hid, hv]
      obtain ⟨room1, happly⟩ := applyMove_isSome index hp
      right
      refine ⟨room, p, room1, rfl, hs, hp, hid, hv, happly, ?_⟩
      rcases move_accepted rooms sid roomId index room room1 p hroom hs hp hid hv happly with
        ⟨hw, h⟩ | ⟨_, hd, h⟩ | ⟨hw, hd, h, _⟩
      · left; exact ⟨Or.inl hw, by rw [h]⟩
      · left; exact ⟨Or.inr hd, by rw [h]⟩
      · right; exact ⟨hw, hd, h⟩

/-! ## After a win or a draw -/

/-- C4 (the claim fails): in the room created by A and joined by B, the fifth
move (A plays 7) emits 'win'; afterwards the room is not started, and the next
'move' of the player at index 0 (A) on the empty cell 4 of the fresh board is
not applied: the registry is unchanged and nothing is emitted. -/
theorem rematch_move_rejected :
    (Target.room "room1", Msg.win (Winner.bool true)) ∈
      (move morpionAfterFour "a" "room1" 7).out ∧
    morpionAfterWin.get "room1" =
      some { roomOfCells (List.replicate 9 none) with started := false } ∧
    isValidMove { roomOfCells (List.replicate 9 none) with started := false } 4 = some true ∧
    move morpionAfterWin "a" "room1" 4 =
      { rooms := morpionAfterWin, out := [], threw := false } := by
  refine ⟨?_, ?_, ?_, ?_⟩ <;> decide

/-- C4 (amended): when the 'move' handler emits 'win' or 'draw' for a room, the
room stays in the registry with the same players, its board is
`initBoard(gameType)`, `currentPlayer` is 0 and `started` is false; every later
'move' on that room, from any connection and with any index, is rejected: it
leaves the registry unchanged and emits nothing. -/
theorem move_terminal_unstarts (rooms : Rooms) (sid roomId : String) (index : Int) (room : Room)
    (hroom : rooms.get roomId = some room)
    (hend : (∃ w, (Target.room roomId, Msg.win w) ∈ (move rooms sid roomId index).out) ∨
      (Target.room roomId, Msg.draw) ∈ (move rooms sid roomId index).out) :
    ∃ room1, (move rooms sid roomId index).rooms.get roomId = some room1 ∧
      room1.players = room.players ∧ room1.board = initBoard room.gameType ∧
      room1.currentPlayer = 0 ∧ room1.started = false ∧
      ∀ (sid1 : String) (index1 : Int),
        move (move rooms sid roomId index).rooms sid1 roomId index1 =
          { rooms := (move rooms sid roomId index).rooms, out := [], threw := false } := by
  by_cases hs : room.started = true
  swap
  · exfalso
    simp [move, hroom, hs] at hend
  cases hp : jsGet room.players room.currentPlayer with
  | none => exfalso; simp [move, hroom, hs, hp] at hend
  | some p =>
    by_cases hid : p.id = sid
    swap
    · exfalso; simp [move, hroom, hs, hp, hid] at hend
    by_cases hv : truthy (isValidMove room index) = true
    swap
    · exfalso; simp [move, hroom, hs, hp, hid, hv] at hend
    obtain ⟨room1, happly⟩ := applyMove_isSome index hp
    obtain ⟨hgt, hpl, _, _, _⟩ := applyMove_frame happly
    have hreset : (move rooms sid roomId index).rooms = rooms.put roomId (resetRoom room1) := by
      rcases move_accepted rooms sid roomId index room room1 p hroom hs hp hid hv happly with
        ⟨_, h⟩ | ⟨_, _, h⟩ | ⟨_, _, _, hnw, hnd⟩
      · rw [h]
      · rw [h]
      · rcases hend with ⟨w, hw⟩ | hd
        · exact absurd hw (hnw w)
        · exact absurd hd hnd
    refine ⟨resetRoom room1, ?_, ?_, ?_, rfl, rfl, ?_⟩
    · rw [hreset, Rooms.get_put_self]
    · simp [resetRoom, hpl]
    · simp [resetRoom, hgt]
    · intro sid1 index1
      rw [hreset]
      simp [move, Rooms.get_put_self, resetRoom]

theorem move_terminal_unstarts_witness :
    ∃ room1, (move morpionAfterFour "a" "room1" 7).rooms.get "room1" = some room1 ∧
      room1.players = (roomOfCells [some Symbol.O, some Symbol.X, none, some Symbol.O,
        some Symbol.X, none, none, none, none]).players ∧
      room1.board = initBoard (roomOfCells [some Symbol.O, some Symbol.X, none, some Symbol.O,
        some Symbol.X, none, none, none, none]).gameType ∧
      room1.currentPlayer = 0 ∧ room1.started = false ∧
      ∀ (sid1 : String) (index1 : Int),
        move (move morpionAfterFour "a" "room1" 7).rooms sid1 "room1" index1 =
          { rooms := (move morpionAfterFour "a" "room1" 7).rooms, out := [], threw := false } :=
  move_terminal_unstarts morpionAfterFour "a" "room1" 7
    (roomOfCells [some Symbol.O, some Symbol.X, none, some Symbol.O, some Symbol.X,
      none, none, none, none])
    (by decide) (Or.inl ⟨Winner.bool true, by decide⟩)

/-- C5: for a move accepted by the 'move' handler (the room is started, the
sender is `players[currentPlayer]` and `isValidMove` holds), with `room1` the
room after `applyMove`: if `checkWin` and `isDraw` are both falsy on `room1`,
the stored room has `currentPlayer` equal to 1 minus the previous value and the
board of `room1`; if one of them is truthy, the stored room has `currentPlayer`
0 and the board `initBoard(gameType)`, whoever moved. -/
theorem move_turn_alternation (rooms : Rooms) (sid roomId : String) (index : Int)
    (room : Room) (p : Player) (hroom : rooms.get roomId = some room)
    (hstarted : room.started = true)
    (hp : jsGet room.players room.currentPlayer = some p) (hid : p.id = sid)
    (hvalid : truthy (isValidMove room index) = true) :
    ∃ room1 room2, applyMove room index = some room1 ∧
      (move rooms sid roomId index).rooms.get roomId = some room2 ∧
      (((checkWin room1).truthy = false ∧ truthy (isDraw room1) = false) →
        room2.currentPlayer = 1 - room.currentPlayer ∧ room2.board = room1.board) ∧
      (((checkWin room1).truthy = true ∨ truthy (isDraw room1) = true) →
        room2.currentPlayer = 0 ∧ room2.board = initBoard room.gameType) := by
  obtain ⟨room1, happly⟩ := applyMove_isSome index hp
  obtain ⟨hgt, _, hcp, _, _⟩ := applyMove_frame happly
  rcases move_accepted rooms sid roomId index room room1 p hroom hstarted hp hid hvalid happly with
    ⟨hw, h⟩ | ⟨hw, hd, h⟩ | ⟨hw, hd, h, _⟩
  · refine ⟨room1, resetRoom room1, happly, by rw [h]; exact Rooms.get_put_self _ _ _, ?_, ?_⟩
    · rintro ⟨hw2, _⟩
      rw [hw] at hw2
      cases hw2
    · intro _
      simp [resetRoom, hgt]
  · refine ⟨room1, resetRoom room1, happly, by rw [h]; exact Rooms.get_put_self _ _ _, ?_, ?_⟩
    · rintro ⟨_, hd2⟩
      rw [hd] at hd2
      cases hd2
    · intro _
      simp [resetRoom, hgt]
  · refine ⟨room1, { room1 with currentPlayer := 1 - room1.currentPlayer }, happly,
      by rw [h]; exact Rooms.get_put_self _ _ _, ?_, ?_⟩
    · intro _
      simp [hcp]
    · rintro (hw2 | hd2)
      · rw [hw] at hw2
        cases hw2
      · rw [hd] at hd2
        cases hd2

theorem move_turn_alternation_witness :
    ∃ room1 room2, applyMove (roomOfCells (List.replicate 9 none)) 4 = some room1 ∧
      (move morpionStart "a" "room1" 4).rooms.get "room1" = some room2 ∧
      (((checkWin room1).truthy = false ∧ truthy (isDraw room1) = false) →
        room2.currentPlayer = 1 - (roomOfCells (List.replicate 9 none)).currentPlayer ∧
        room2.board = room1.board) ∧
      (((checkWin room1).truthy = true ∨ truthy (isDraw room1) = true) →
        room2.currentPlayer = 0 ∧
        room2.board = initBoard (roomOfCells (List.replicate 9 none)).gameType) :=
  move_turn_alternation morpionStart "a" "room1" 4 (roomOfCells (List.replicate 9 none))
    { id := "a", username := "A", symbol := Symbol.X } (by decide) rfl (by decide) rfl (by decide)

/-! ## Gravity: `applyMove` on a 'puissance4' board -/

theorem countP_set {α : Type} (p : α → Bool) (l : List α) (i : Nat) (a x : α)
    (h : l[i]? = some x) :
    (l.set i a).countP p + (if p x then 1 else 0) = l.countP p + (if p a then 1 else 0) := by
  induction l generalizing i with
  | nil => simp at h
  | cons y ys ih =>
    cases i with
    | zero =>
      simp only [List.getElem?_cons_zero, Option.some.injEq] at h
      subst h
      simp only [List.set_cons_zero, List.countP_cons]
      omega
    | succ j =>
      simp only [List.getElem?_cons_succ] at h
      have := ih j h
      simp only [List.set_cons_succ, List.countP_cons]
      omega

theorem cellAtCol_eq_some {g : List (List Cell)} {r : Nat} {col : Int} {x : Cell} :
    cellAtCol g r col = some x ↔ ∃ row, g[r]? = some row ∧ jsGet row col = some x := by
  unfold cellAtCol
  cases g[r]? with
  | none => simp
  | some row => simp

theorem cellAtCol_eq_cellAt (g : List (List Cell)) (r : Nat) {col : Int} (h : 0 ≤ col) :
    cellAtCol g r col = cellAt g r col.toNat := by
  unfold cellAtCol cellAt jsGet
  have : ¬ col < 0 := by omega
  simp [this]

theorem isValidColumn_iff {g : List (List Cell)} {col : Int} :
    isValidColumn g col = true ↔ ∃ r, r < g.length ∧ cellAtCol g r col = some none := by
  unfold isValidColumn
  simp only [List.any_eq_true, decide_eq_true_eq]
  constructor
  · rintro ⟨row, hmem, hrow⟩
    obtain ⟨r, hr, rfl⟩ := List.getElem_of_mem hmem
    exact ⟨r, hr, cellAtCol_eq_some.mpr ⟨g[r], List.getElem?_eq_getElem hr, hrow⟩⟩
  · rintro ⟨r, _, hcell⟩
    obtain ⟨row, hrow, hget⟩ := cellAtCol_eq_some.mp hcell
    exact ⟨row, List.getElem?_mem hrow, hget⟩

theorem isValidColumn_iff_pos {g : List (List Cell)} {col : Int} :
    isValidColumn g col = true ↔ 0 < emptyInColumn g col := by
  unfold isValidColumn emptyInColumn
  rw [List.countP_pos_iff, List.any_eq_true]

/-- The loop of `applyMove` writes the `null` cell of greatest row index below
`n`, when there is one. -/
theorem dropFrom_spec (g : List (List Cell)) (col : Int) (s : Symbol) :
    ∀ n : Nat, (∃ r, r < n ∧ cellAtCol g r col = some none) →
      ∃ r, r < n ∧ cellAtCol g r col = some none ∧
        (∀ r1, r < r1 → r1 < n → cellAtCol g r1 col ≠ some none) ∧
        dropFrom g col s n = setCell g r col s := by
  intro n
  induction n with
  | zero => rintro ⟨r, hr, _⟩; omega
  | succ n ih =>
    rintro ⟨r, hr, hcell⟩
    by_cases hn : cellAtCol g n col = some none
    · refine ⟨n, by omega, hn, ?_, ?_⟩
      · intro r1 h1 h2; omega
      · simp [dropFrom, hn]
    · have hrn : r < n := by
        rcases Nat.lt_succ_iff_lt_or_eq.mp hr with h | h
        · exact h
        · subst h; exact absurd hcell hn
      obtain ⟨r0, hr0, hc0, hup, hdrop⟩ := ih ⟨r, hrn, hcell⟩
      refine ⟨r0, by omega, hc0, ?_, ?_⟩
      · intro r1 h1 h2
        rcases Nat.lt_succ_iff_lt_or_eq.mp h2 with h | h
        · exact hup r1 h1 h
        · subst h; exact hn
      · simp [dropFrom, hn, hdrop]

/-- On a full column the loop of `applyMove` writes nothing. -/
theorem dropFrom_full (g : List (List Cell)) (col : Int) (s : Symbol) :
    ∀ n : Nat, (∀ r, r < n → cellAtCol g r col ≠ some none) → dropFrom g col s n = g := by
  intro n
  induction n with
  | zero => intro _; rfl
  | succ n ih =>
    intro h
    have hn := h n (by omega)
    simp only [dropFrom, hn, if_false]
    exact ih fun r hr => h r (by omega)

theorem setCell_eq {g : List (List Cell)} {r : Nat} {col : Int} (s : Symbol)
    (h : cellAtCol g r col = some none) :
    ∃ row, g[r]? = some row ∧ 0 ≤ col ∧ row[col.toNat]? = some none ∧
      setCell g r col s = g.set r (row.set col.toNat (some s)) := by
  obtain ⟨row, hrow, hget⟩ := cellAtCol_eq_some.mp h
  obtain ⟨h0, hc⟩ := (jsGet_eq_some_iff row col none).mp hget
  exact ⟨row, hrow, h0, hc, by simp [setCell, hrow]⟩

theorem cellAt_setCell {g : List (List Cell)} {r : Nat} {col : Int} (s : Symbol)
    (h : cellAtCol g r col = some none) (r1 c1 : Nat) :
    cellAt (setCell g r col s) r1 c1 =
      if r1 = r ∧ c1 = col.toNat then some (some s) else cellAt g r1 c1 := by
  obtain ⟨row, hrow, _, hc, hset⟩ := setCell_eq s h
  have hr : r < g.length := (List.getElem?_eq_some_iff.mp hrow).1
  have hcl : col.toNat < row.length := (List.getElem?_eq_some_iff.mp hc).1
  rw [hset]
  unfold cellAt
  by_cases h1 : r1 = r
  · subst h1
    rw [List.getElem?_set_self hr]
    simp only [hrow, true_and]
    by_cases h2 : c1 = col.toNat
    · subst h2
      simp [List.getElem?_set_self hcl]
    · simp [h2, List.getElem?_set_ne (Ne.symm h2)]
  · rw [List.getElem?_set_ne (Ne.symm h1)]
    simp [h1]

theorem isGrid_setCell {g : List (List Cell)} {r : Nat} {col : Int} (s : Symbol)
    (hg : IsGrid g) (h : cellAtCol g r col = some none) : IsGrid (setCell g r col s) := by
  obtain ⟨row, hrow, _, _, hset⟩ := setCell_eq s h
  rw [hset]
  refine ⟨by simp [hg.1], ?_⟩
  intro row1 hmem
  rcases List.mem_or_eq_of_mem_set hmem with h1 | h1
  · exact hg.2 row1 h1
  · subst h1
    simp [hg.2 row (List.getElem?_mem hrow)]

theorem emptyInColumn_setCell {g : List (List Cell)} {r : Nat} {col : Int} (s : Symbol)
    (h : cellAtCol g r col = some none) :
    emptyInColumn (setCell g r col s) col + 1 = emptyInColumn g col := by
  obtain ⟨row, hrow, h0, hc, hset⟩ := setCell_eq s h
  have hcl : col.toNat < row.length := (List.getElem?_eq_some_iff.mp hc).1
  rw [hset]
  unfold emptyInColumn
  have key := countP_set (fun row => decide (jsGet row col = some none)) g r
    (row.set col.toNat (some s)) row hrow
  have hold : jsGet row col = some none := (jsGet_eq_some_iff row col none).mpr ⟨h0, hc⟩
  have hnew : ¬ jsGet (row.set col.toNat (some s)) col = some none := by
    rw [jsGet_eq_some_iff]
    rintro ⟨_, hx⟩
    rw [List.getElem?_set_self hcl] at hx
    simp at hx
  simp only [hold, hnew, decide_True, decide_False, if_true] at key
  simpa using key

/-- A valid drop writes the `null` cell of greatest row index of the column. -/
theorem dropColumn_valid {g : List (List Cell)} {col : Int} (s : Symbol) (hg : IsGrid g)
    (hv : isValidColumn g col = true) :
    ∃ r, r < 6 ∧ cellAtCol g r col = some none ∧
      (∀ r1, r < r1 → r1 < 6 → cellAtCol g r1 col ≠ some none) ∧
      dropColumn g col s = setCell g r col s := by
  obtain ⟨r, hr, hcell⟩ := isValidColumn_iff.mp hv
  rw [hg.1] at hr
  exact dropFrom_spec g col s 6 ⟨r, hr, hcell⟩

theorem isValidMove_puissance4 {room : Room} {g : List (List Cell)} (col : Int)
    (hgt : room.gameType = "puissance4") (hb : room.board = Board.grid g) :
    isValidMove room col = some (isValidColumn g col) := by
  have hne : room.gameType ≠ "morpion" := by rw [hgt]; decide
  simp [isValidMove, hne, hgt, hb]

theorem applyMove_grid_eq {room : Room} {g : List (List Cell)} {p : Player} (col : Int)
    (hgt : room.gameType = "puissance4") (hb : room.board = Board.grid g)
    (hp : jsGet room.players room.currentPlayer = some p) :
    applyMove room col = some { room with board := Board.grid (dropColumn g col p.symbol) } := by
  have hne : room.gameType ≠ "morpion" := by rw [hgt]; decide
  rw [applyMove_eq col hp]
  simp [hne, hgt, hb]

/-- C8: in a 'puissance4' room with a 6x7 board, for a column on which
`isValidMove` holds (then one of 0..6), `applyMove` writes the marker of the
current player into the empty cell of greatest row index of that column (row 5
is the bottom) and changes no other cell. -/
theorem applyMove_puissance4 (room : Room) (g : List (List Cell)) (col : Int) (p : Player)
    (hgt : room.gameType = "puissance4") (hb : room.board = Board.grid g) (hg : IsGrid g)
    (hvalid : isValidMove room col = some true)
    (hp : jsGet room.players room.currentPlayer = some p) :
    0 ≤ col ∧ col ≤ 6 ∧
    ∃ r g1, r < 6 ∧ applyMove room col = some { room with board := Board.grid g1 } ∧
      IsGrid g1 ∧
      cellAt g r col.toNat = some none ∧
      (∀ r1, r < r1 → r1 < 6 → cellAt g r1 col.toNat ≠ some none) ∧
      cellAt g1 r col.toNat = some (some p.symbol) ∧
      (∀ r1 c1, (r1, c1) ≠ (r, col.toNat) → cellAt g1 r1 c1 = cellAt g r1 c1) := by
  have hv : isValidColumn g col = true := by
    rw [isValidMove_puissance4 col hgt hb] at hvalid
    simpa using hvalid
  obtain ⟨r, hr, hcell, hup, hdrop⟩ := dropColumn_valid p.symbol hg hv
  obtain ⟨row, hrow, h0, hc, _⟩ := setCell_eq p.symbol hcell
  have hc7 : col.toNat < 7 := by
    have := (List.getElem?_eq_some_iff.mp hc).1
    rwa [hg.2 row (List.getElem?_mem hrow)] at this
  refine ⟨h0, by omega, r, dropColumn g col p.symbol, hr,
    applyMove_grid_eq col hgt hb hp, ?_, ?_, ?_, ?_, ?_⟩
  · rw [hdrop]; exact isGrid_setCell p.symbol hg hcell
  · rw [← cellAtCol_eq_cellAt g r h0]; exact hcell
  · intro r1 h1 h2
    rw [← cellAtCol_eq_cellAt g r1 h0]
    exact hup r1 h1 h2
  · rw [hdrop, cellAt_setCell p.symbol hcell]
    simp
  · intro r1 c1 hne
    rw [hdrop, cellAt_setCell p.symbol hcell]
    have : ¬ (r1 = r ∧ c1 = col.toNat) := by
      rintro ⟨rfl, rfl⟩
      exact hne rfl
    simp [this]

theorem applyMove_puissance4_witness :
    (0 : Int) ≤ 3 ∧ (3 : Int) ≤ 6 ∧
    ∃ r g1, r < 6 ∧
      applyMove (roomOfGrid gridColumnThree) 3 =
        some { roomOfGrid gridColumnThree with board := Board.grid g1 } ∧
      IsGrid g1 ∧
      cellAt gridColumnThree r (3 : Int).toNat = some none ∧
      (∀ r1, r < r1 → r1 < 6 → cellAt gridColumnThree r1 (3 : Int).toNat ≠ some none) ∧
      cellAt g1 r (3 : Int).toNat = some (some Symbol.R) ∧
      (∀ r1 c1, (r1, c1) ≠ (r, (3 : Int).toNat) → cellAt g1 r1 c1 = cellAt gridColumnThree r1 c1) :=
  applyMove_puissance4 (roomOfGrid gridColumnThree) gridColumnThree 3
    { id := "a", username := "A", symbol := Symbol.R } rfl rfl (by decide) (by decide) (by decide)

/-! ## Filling a column -/

theorem dropColumn_count {g : List (List Cell)} {col : Int} (s : Symbol) (hg : IsGrid g)
    (hv : isValidColumn g col = true) :
    IsGrid (dropColumn g col s) ∧
    emptyInColumn (dropColumn g col s) col + 1 = emptyInColumn g col := by
  obtain ⟨r, _, hcell, _, hdrop⟩ := dropColumn_valid s hg hv
  rw [hdrop]
  exact ⟨isGrid_setCell s hg hcell, emptyInColumn_setCell s hcell⟩

theorem dropAll_valid (col : Int) (syms : List Symbol) :
    ∀ (n : Nat) (g : List (List Cell)), IsGrid g → emptyInColumn g col = n → syms.length ≤ n →
      isValidColumn (dropAll g col syms) col = decide (syms.length < n) := by
  induction syms with
  | nil =>
    intro n g _ hn _
    rw [Bool.eq_iff_iff, isValidColumn_iff_pos]
    simp [dropAll, hn]
  | cons s rest ih =>
    intro n g hg hn hlen
    simp only [List.length_cons] at hlen
    have hv : isValidColumn g col = true := by
      rw [isValidColumn_iff_pos, hn]; omega
    obtain ⟨hg1, hcount⟩ := dropColumn_count s hg hv
    have := ih (n - 1) (dropColumn g col s) hg1 (by omega) (by omega)
    simp only [dropAll, List.length_cons]
    rw [this]
    congr 1
    apply propext
    omega

/-- C9: on a 6x7 'puissance4' board, each `applyMove` on a column for which
`isValidMove` holds removes exactly one empty cell from that column; starting
from an empty column, after `k` drops of any markers (`k` at most 6),
`isValidMove` on that column is true when `k < 6` and false when `k = 6`. -/
theorem drops_fill_column (g : List (List Cell)) (col : Int) (hg : IsGrid g) :
    (∀ (room : Room) (p : Player), room.gameType = "puissance4" → room.board = Board.grid g →
      jsGet room.players room.currentPlayer = some p → isValidMove room col = some true →
      ∃ g1, applyMove room col = some { room with board := Board.grid g1 } ∧ IsGrid g1 ∧
        emptyInColumn g1 col + 1 = emptyInColumn g col) ∧
    (emptyInColumn g col = 6 → ∀ syms : List Symbol, syms.length ≤ 6 →
      isValidColumn (dropAll g col syms) col = decide (syms.length < 6)) := by
  constructor
  · intro room p hgt hb hp hvalid
    have hv : isValidColumn g col = true := by
      rw [isValidMove_puissance4 col hgt hb] at hvalid
      simpa using hvalid
    obtain ⟨hg1, hcount⟩ := dropColumn_count p.symbol hg hv
    exact ⟨_, applyMove_grid_eq col hgt hb hp, hg1, hcount⟩
  · intro hempty syms hlen
    exact dropAll_valid col syms 6 g hg hempty hlen

theorem drops_fill_column_witness :
    isValidColumn (dropAll (List.replicate 6 (List.replicate 7 none)) 3
      [Symbol.R, Symbol.Y, Symbol.R, Symbol.R, Symbol.Y, Symbol.R]) 3 = false ∧
    isValidColumn (dropAll (List.replicate 6 (List.replicate 7 none)) 3
      [Symbol.R, Symbol.Y, Symbol.R, Symbol.R, Symbol.Y]) 3 = true :=
  ⟨(drops_fill_column (List.replicate 6 (List.replicate 7 none)) 3 (by decide)).2 (by decide)
      [Symbol.R, Symbol.Y, Symbol.R, Symbol.R, Symbol.Y, Symbol.R] (by decide),
   (drops_fill_column (List.replicate 6 (List.replicate 7 none)) 3 (by decide)).2 (by decide)
      [Symbol.R, Symbol.Y, Symbol.R, Symbol.R, Symbol.Y] (by decide)⟩

/-! ## Strict alternation in 'morpion' -/

theorem countSymbol_set {cells : List Cell} {i : Nat} (s t : Symbol)
    (h : cells[i]? = some none) :
    countSymbol (cells.set i (some s)) t = countSymbol cells t + (if s = t then 1 else 0) := by
  unfold countSymbol
  have key := countP_set (fun cell : Cell => decide (cell = some t)) cells i (some s) none h
  simp only [Option.some.injEq, decide_eq_true_eq] at key
  simpa using key

theorem alternates_start (rooms : Rooms) (a b roomId ua ub : String) :
    ∃ room, (joinRoom (createRoom rooms a roomId ua "morpion").rooms b roomId ub).rooms.get roomId
        = some room ∧ Alternates room := by
  refine ⟨{ gameType := "morpion"
            players := [{ id := a, username := ua, symbol := Symbol.X },
                        { id := b, username := ub, symbol := Symbol.O }]
            board := Board.cells (List.replicate 9 none)
            currentPlayer := 0
            chat := []
            started := true }, ?_, ?_⟩
  · simp [createRoom, joinRoom, Rooms.get_put_self, initBoard]
  · refine ⟨rfl, ⟨_, _, rfl, rfl, rfl⟩, _, rfl, Or.inl ⟨rfl, ?_⟩⟩
    decide

theorem alternates_resetRoom {room : Room} (h : Alternates room) (room1 : Room)
    (hgt : room1.gameType = room.gameType) (hpl : room1.players = room.players) :
    Alternates (resetRoom room1) := by
  obtain ⟨hm, hplayers, _⟩ := h
  refine ⟨by simp [resetRoom, hgt, hm], by simpa [resetRoom, hpl] using hplayers, ?_⟩
  refine ⟨List.replicate 9 none, by simp [resetRoom, hgt, hm, initBoard], Or.inl ⟨rfl, ?_⟩⟩
  decide

theorem alternates_turn {room room1 : Room} {p : Player} {index : Int} (h : Alternates room)
    (hp : jsGet room.players room.currentPlayer = some p)
    (hvalid : truthy (isValidMove room index) = true)
    (happly : applyMove room index = some room1) :
    Alternates { room1 with currentPlayer := 1 - room1.currentPlayer } := by
  obtain ⟨hm, ⟨pa, pb, hpl, hpa, hpb⟩, cells, hb, hcount⟩ := h
  have hcell : jsGet cells index = some none := by
    simpa [isValidMove, hm, hb, truthy] using hvalid
  obtain ⟨h0, hc⟩ := (jsGet_eq_some_iff cells index none).mp hcell
  have hneg : ¬ index < 0 := by omega
  rw [applyMove_eq index hp, if_pos hm] at happly
  simp only [hb, hneg, if_false, Option.some.injEq] at happly
  subst happly
  refine ⟨hm, ⟨pa, pb, hpl, hpa, hpb⟩, cells.set index.toNat (some p.symbol), rfl, ?_⟩
  rcases hcount with ⟨hcp, hxo⟩ | ⟨hcp, hxo⟩
  · right
    have hpe : p = pa := by
      rw [hpl, hcp] at hp
      simpa [jsGet] using hp.symm
    subst hpe
    refine ⟨by simp [hcp], ?_⟩
    rw [countSymbol_set _ _ hc, countSymbol_set _ _ hc, hpa]
    simp [hxo]
  · left
    have hpe : p = pb := by
      rw [hpl, hcp] at hp
      simpa [jsGet] using hp.symm
    subst hpe
    refine ⟨by simp [hcp], ?_⟩
    rw [countSymbol_set _ _ hc, countSymbol_set _ _ hc, hpb]
    simp [hxo]

theorem alternates_move (rooms : Rooms) (sid actionRoom roomId : String) (index : Int)
    (room : Room) (hroom : rooms.get roomId = some room) (h : Alternates room) :
    ∃ room2, (move rooms sid actionRoom index).rooms.get roomId = some room2 ∧
      Alternates room2 := by
  rcases move_rooms_cases rooms sid actionRoom index with hsame | hacc
  · exact ⟨room, by rw [hsame]; exact hroom, h⟩
  · obtain ⟨room0, p, room1, hroom0, _, hp, _, hvalid, happly, hout⟩ := hacc
    by_cases hk : actionRoom = roomId
    · subst hk
      rw [hroom] at hroom0
      injection hroom0 with hroom0
      subst hroom0
      obtain ⟨hgt, hpl, _, _, _⟩ := applyMove_frame happly
      rcases hout with ⟨_, hrooms⟩ | ⟨_, _, hrooms⟩
      · exact ⟨_, by rw [hrooms]; exact Rooms.get_put_self _ _ _,
          alternates_resetRoom h room1 hgt hpl⟩
      · exact ⟨_, by rw [hrooms]; exact Rooms.get_put_self _ _ _,
          alternates_turn h hp hvalid happly⟩
    · refine ⟨room, ?_, h⟩
      rcases hout with ⟨_, hrooms⟩ | ⟨_, _, hrooms⟩
      · rw [hrooms, Rooms.get_put_ne _ _ _ _ hk]; exact hroom
      · rw [hrooms, Rooms.get_put_ne _ _ _ _ hk]; exact hroom

theorem alternates_runMoves (roomId : String) (actions : List (String × String × Int)) :
    ∀ (rooms : Rooms) (room : Room), rooms.get roomId = some room → Alternates room →
      ∃ room2, (runMoves rooms actions).get roomId = some room2 ∧ Alternates room2 := by
  induction actions with
  | nil => intro rooms room hroom h; exact ⟨room, hroom, h⟩
  | cons act rest ih =>
    intro rooms room hroom h
    obtain ⟨sid, actionRoom, index⟩ := act
    obtain ⟨room1, hroom1, h1⟩ := alternates_move rooms sid actionRoom roomId index room hroom h
    exact ih _ room1 hroom1 h1

/-- C10: after socket `a` created the 'morpion' room `roomId` and socket `b`
joined it, whatever 'move' actions follow (any sockets, any rooms, any indices,
accepted or rejected), the room still exists, its players hold 'X' and 'O' in
that order, and the number of 'X' cells of its board is the number of 'O' cells
or one more. -/
theorem morpion_strict_alternation (rooms : Rooms) (a b roomId ua ub : String)
    (actions : List (String × String × Int)) :
    ∃ room cells,
      (runMoves (joinRoom (createRoom rooms a roomId ua "morpion").rooms b roomId ub).rooms
        actions).get roomId = some room ∧
      room.players.map (fun p => p.symbol) = [Symbol.X, Symbol.O] ∧
      room.board = Board.cells cells ∧
      (countSymbol cells Symbol.X = countSymbol cells Symbol.O ∨
       countSymbol cells Symbol.X = countSymbol cells Symbol.O + 1) := by
  obtain ⟨room0, hroom0, h0⟩ := alternates_start rooms a b roomId ua ub
  obtain ⟨room, hroom, h⟩ := alternates_runMoves roomId actions _ room0 hroom0 h0
  obtain ⟨_, ⟨pa, pb, hpl, hpa, hpb⟩, cells, hb, hcount⟩ := h
  refine ⟨room, cells, hroom, by simp [hpl, hpa, hpb], hb, ?_⟩
  rcases hcount with ⟨_, hxo⟩ | ⟨_, hxo⟩
  · exact Or.inl hxo
  · exact Or.inr hxo

/-! ## Rooms that lost a player -/

/-- C11 (evaluation of the code): after A created "room1", B joined and B
disconnected, the registry is reachable, "room1" holds the single player A and
is still started; the 'move' of A on cell 4 is then accepted: the stored board
holds 'X' in cell 4, `currentPlayer` is 1 and the 'move' message is emitted,
after which the handler stops on the `TypeError` of `players[1].symbol`. -/
theorem move_accepted_with_one_player :
    run [] traceLeaveAtStart =
      some [("room1", { roomOfCells (List.replicate 9 none) with
        players := [{ id := "a", username := "A", symbol := Symbol.X }] })] ∧
    move [("room1", { roomOfCells (List.replicate 9 none) with
        players := [{ id := "a", username := "A", symbol := Symbol.X }] })] "a" "room1" 4 =
      { rooms := [("room1", { roomOfCells [none, none, none, none, some Symbol.X, none, none,
            none, none] with
          players := [{ id := "a", username := "A", symbol := Symbol.X }]
          currentPlayer := 1 })]
        out := [(Target.room "room1", Msg.move 4 Symbol.X)]
        threw := true } := by
  constructor <;> decide

/-- C12 (evaluation of the code): after A created "room1", B joined, A played 4
and B disconnected, "room1" holds the single player A with `currentPlayer` 1.
The 'joinRoom' of C succeeds and starts the game, but `currentPlayer` stays 1:
'startGame' names 'X', the marker of `players[0]`, while the player allowed to
move, `players[1]`, is C with 'O'. -/
theorem joinRoom_keeps_currentPlayer :
    run [] traceLeaveAfterMove =
      some [("room1", { roomOfCells [none, none, none, none, some Symbol.X, none, none,
            none, none] with
          players := [{ id := "a", username := "A", symbol := Symbol.X }]
          currentPlayer := 1 })] ∧
    joinRoom [("room1", { roomOfCells [none, none, none, none, some Symbol.X, none, none,
            none, none] with
          players := [{ id := "a", username := "A", symbol := Symbol.X }]
          currentPlayer := 1 })] "c" "room1" "C" =
      { rooms := [("room1", { roomOfCells [none, none, none, none, some Symbol.X, none, none,
            none, none] with
          players := [{ id := "a", username := "A", symbol := Symbol.X },
                      { id := "c", username := "C", symbol := Symbol.O }]
          currentPlayer := 1 })]
        out := [(Target.socket "c", Msg.joinedRoom "room1" "C" Symbol.O),
                (Target.room "room1", Msg.playerJoined [("A", Symbol.X), ("C", Symbol.O)]),
                (Target.room "room1", Msg.startGame (some Symbol.X))]
        threw := false } ∧
    jsGet [({ id := "a", username := "A", symbol := Symbol.X } : Player),
           { id := "c", username := "C", symbol := Symbol.O }] 1 =
      some { id := "c", username := "C", symbol := Symbol.O } := by
  refine ⟨?_, ?_, ?_⟩ <;> decide

/-- C13 (evaluation of the code): after A created "room1", B joined and A
disconnected, the 'joinRoom' of C gives C the marker 'O' again: the reachable
registry holds "room1" with two players that both hold 'O', and `players[0]`
does not hold the first marker 'X'. -/
theorem joinRoom_duplicate_symbol :
    run [] (traceCreatorLeaves ++ [Action.joinRoom "c" "room1" "C"]) =
      some [("room1", { roomOfCells (List.replicate 9 none) with
        players := [{ id := "b", username := "B", symbol := Symbol.O },
                    { id := "c", username := "C", symbol := Symbol.O }] })] := by
  decide

/-- C15 (evaluation of the code): after A created "room1", B joined, A played 4
and B disconnected, the reachable registry holds "room1" started with one
player and `currentPlayer` 1; the next 'move' on "room1" reads `players[1]`,
which is `undefined`, and the handler ends in an uncaught `TypeError`. -/
theorem move_throws_after_disconnect :
    (∃ rooms room, run [] traceLeaveAfterMove = some rooms ∧
      rooms.get "room1" = some room ∧ room.started = true ∧
      room.players.length = 1 ∧ room.currentPlayer = 1 ∧
      jsGet room.players room.currentPlayer = none ∧
      (move rooms "a" "room1" 0).threw = true) ∧
    run [] (traceLeaveAfterMove ++ [Action.move "a" "room1" 0]) = none := by
  refine ⟨⟨_, _, rfl, rfl, ?_⟩, ?_⟩ <;> decide

/-! ## Unknown game types -/

/-- C16 (the claim fails): 'createRoom' with the gameType 'dames' is not
rejected: the room "room1" is added with gameType 'dames' and an `undefined`
board, and the creator is told the marker 'R'. -/
theorem createRoom_dames_adds_room :
    createRoom [] "a" "room1" "A" "dames" =
      { rooms := [("room1",
          { gameType := "dames"
            players := [{ id := "a", username := "A", symbol := Symbol.R }]
            board := Board.undefined
            currentPlayer := 0
            chat := []
            started := false })]
        out := [(Target.socket "a", Msg.joinedRoom "room1" "A" Symbol.R),
                (Target.all, Msg.roomsList [("room1", "dames", 1)])]
        threw := false } := by
  decide

/-- C16 (amended): for a 'createRoom' whose gameType is neither 'morpion' nor
'puissance4', the room is added under the new id with that gameType as sent and
an `undefined` board, the creator holds 'R' and is told so; on a room of such a
gameType `isValidMove` returns `undefined`, so no 'move' is ever applied: it
leaves the registry unchanged and emits nothing. -/
theorem createRoom_unknown_gameType (rooms : Rooms) (sid roomId username gameType : String)
    (h1 : gameType ≠ "morpion") (h2 : gameType ≠ "puissance4") :
    (createRoom rooms sid roomId username gameType).rooms.get roomId =
      some { gameType := gameType
             players := [{ id := sid, username := username, symbol := Symbol.R }]
             board := Board.undefined
             currentPlayer := 0
             chat := []
             started := false } ∧
    (Target.socket sid, Msg.joinedRoom roomId username Symbol.R) ∈
      (createRoom rooms sid roomId username gameType).out ∧
    ∀ (rooms1 : Rooms) (room : Room), rooms1.get roomId = some room →
      room.gameType = gameType → ∀ (sid1 : String) (index : Int),
        isValidMove room index = none ∧
        (move rooms1 sid1 roomId index).rooms = rooms1 ∧
        (move rooms1 sid1 roomId index).out = [] := by
  refine ⟨?_, ?_, ?_⟩
  · simp [createRoom, Rooms.get_put_self, initBoard, h1, h2]
  · simp [createRoom, h1]
  · intro rooms1 room hroom hgt sid1 index
    have hv : isValidMove room index = none := by
      simp [isValidMove, hgt, h1, h2]
    refine ⟨hv, ?_, ?_⟩
    · rcases move_rooms_cases rooms1 sid1 roomId index with h | ⟨room0, _, _, hroom0, _, _, _, hvalid, _⟩
      · exact h
      · rw [hroom] at hroom0
        injection hroom0 with hroom0
        subst hroom0
        simp [hv, truthy] at hvalid
    · by_cases hs : room.started = true
      · cases hp : jsGet room.players room.currentPlayer with
        | none => simp [move, hroom, hs, hp]
        | some p =>
          by_cases hid : p.id = sid1
          · simp [move, hroom, hs, hp, hid, hv, truthy]
          · simp [move, hroom, hs, hp, hid]
      · simp [move, hroom, hs]

theorem createRoom_unknown_gameType_witness :
    (createRoom [] "a" "room1" "A" "dames").rooms.get "room1" =
      some { gameType := "dames"
             players := [{ id := "a", username := "A", symbol := Symbol.R }]
             board := Board.undefined
             currentPlayer := 0
             chat := []
             started := false } ∧
    (Target.socket "a", Msg.joinedRoom "room1" "A" Symbol.R) ∈
      (createRoom [] "a" "room1" "A" "dames").out ∧
    ∀ (rooms1 : Rooms) (room : Room), rooms1.get "room1" = some room →
      room.gameType = "dames" → ∀ (sid1 : String) (index : Int),
        isValidMove room index = none ∧
        (move rooms1 sid1 "room1" index).rooms = rooms1 ∧
        (move rooms1 sid1 "room1" index).out = [] :=
  createRoom_unknown_gameType [] "a" "room1" "A" "dames" (by decide) (by decide)

/-! ## Chat -/

/-- C17 (the claim fails): in the room created by socket "a" with an empty
username, the player with id "a" is in the room, yet the 'chat' of socket "a"
is recorded and broadcast under the fallback name 'Anonyme'. -/
theorem chat_empty_username_fallback :
    (createRoom [] "a" "room1" "" "morpion").rooms.get "room1" =
      some { roomOfCells (List.replicate 9 none) with
        players := [{ id := "a", username := "", symbol := Symbol.X }]
        started := false } ∧
    chat (createRoom [] "a" "room1" "" "morpion").rooms "a" "room1" "hello" =
      { rooms := [("room1", { roomOfCells (List.replicate 9 none) with
          players := [{ id := "a", username := "", symbol := Symbol.X }]
          chat := [{ sender := "Anonyme", message := "hello" }]
          started := false })]
        out := [(Target.room "room1", Msg.chat "Anonyme" "hello")]
        threw := false } := by
  constructor <;> decide

/-- C17 (amended): on an existing room the 'chat' handler appends exactly one
entry `{sender, message}` at the end of the room's chat and broadcasts it;
`sender` is the username of the first player whose id is the socket's when that
username is not empty, and 'Anonyme' when that username is empty or no player
matches; the other fields of the room and the other rooms are unchanged. -/
theorem chat_appends (rooms : Rooms) (sid roomId message : String) (room : Room)
    (hroom : rooms.get roomId = some room) :
    ∃ sender : String,
      (chat rooms sid roomId message).rooms.get roomId =
        some { room with chat := room.chat ++ [{ sender := sender, message := message }] } ∧
      (chat rooms sid roomId message).out = [(Target.room roomId, Msg.chat sender message)] ∧
      (chat rooms sid roomId message).threw = false ∧
      (∀ other : String, other ≠ roomId →
        (chat rooms sid roomId message).rooms.get other = rooms.get other) ∧
      (∀ p : Player, room.players.find? (fun q => decide (q.id = sid)) = some p →
        sender = if p.username = "" then "Anonyme" else p.username) ∧
      ((∀ p ∈ room.players, p.id ≠ sid) → sender = "Anonyme") := by
  cases hfind : room.players.find? (fun q => decide (q.id = sid)) with
  | none =>
    refine ⟨"Anonyme", ?_, ?_, ?_, ?_, ?_, ?_⟩
    · simp [chat, hroom, hfind, Rooms.get_put_self]
    · simp [chat, hroom, hfind]
    · simp [chat, hroom]
    · intro other hne
      simp only [chat, hroom]
      exact Rooms.get_put_ne _ _ _ _ (Ne.symm hne)
    · intro p hp; cases hp
    · intro _; rfl
  | some p0 =>
    refine ⟨if p0.username = "" then "Anonyme" else p0.username, ?_, ?_, ?_, ?_, ?_, ?_⟩
    · simp [chat, hroom, hfind, Rooms.get_put_self]
    · simp [chat, hroom, hfind]
    · simp [chat, hroom]
    · intro other hne
      simp only [chat, hroom]
      exact Rooms.get_put_ne _ _ _ _ (Ne.symm hne)
    · intro p hp
      injection hp with hp
      subst hp
      rfl
    · intro hnone
      have hmem := List.mem_of_find?_eq_some hfind
      have hid := List.find?_some hfind
      simp only [decide_eq_true_eq] at hid
      exact absurd hid (hnone p0 hmem)

theorem chat_appends_witness :
    ∃ sender : String,
      (chat morpionStart "b" "room1" "hello").rooms.get "room1" =
        some { roomOfCells (List.replicate 9 none) with
          chat := (roomOfCells (List.replicate 9 none)).chat ++
            [{ sender := sender, message := "hello" }] } ∧
      (chat morpionStart "b" "room1" "hello").out =
        [(Target.room "room1", Msg.chat sender "hello")] ∧
      (chat morpionStart "b" "room1" "hello").threw = false ∧
      (∀ other : String, other ≠ "room1" →
        (chat morpionStart "b" "room1" "hello").rooms.get other = morpionStart.get other) ∧
      (∀ p : Player, (roomOfCells (List.replicate 9 none)).players.find?
          (fun q => decide (q.id = "b")) = some p →
        sender = if p.username = "" then "Anonyme" else p.username) ∧
      ((∀ p ∈ (roomOfCells (List.replicate 9 none)).players, p.id ≠ "b") →
        sender = "Anonyme") :=
  chat_appends morpionStart "b" "room1" "hello" (roomOfCells (List.replicate 9 none)) (by decide)

/-! ## Rejections are silent for 'move' -/

/-- C18 (the claim fails): a 'move' on an unknown room, on a room that is not
started, from the player whose turn it is not, or on an index that
`isValidMove` rejects, emits no message at all. -/
theorem move_rejections_emit_nothing :
    (move morpionStart "a" "nowhere" 4).out = [] ∧
    (move (createRoom [] "a" "room1" "A" "morpion").rooms "a" "room1" 4).out = [] ∧
    (move morpionStart "b" "room1" 4).out = [] ∧
    (move morpionStart "a" "room1" 9).out = [] := by
  refine ⟨?_, ?_, ?_, ?_⟩ <;> decide

/-- On a name inherited from `Object.prototype` that is not a room id,
'joinRoom' and 'chat' end in a `TypeError` and emit nothing, and 'move' does
nothing. -/
theorem inherited_key_handlers (rooms : Rooms) (sid roomId text : String) (index : Int)
    (hown : rooms.get roomId = none) (hkey : roomId ∈ inheritedKeys) :
    joinRoom rooms sid roomId text = { rooms := rooms, out := [], threw := true } ∧
    chat rooms sid roomId text = { rooms := rooms, out := [], threw := true } ∧
    move rooms sid roomId index = { rooms := rooms, out := [], threw := false } := by
  refine ⟨?_, ?_, ?_⟩
  · simp only [joinRoom, hown, if_pos hkey]
  · simp only [chat, hown, if_pos hkey]
  · simp only [move, hown]

/-- C18 (amended): a 'move' that is rejected because the room is unknown, the
room is not started, the sender is not `players[currentPlayer]`, or
`isValidMove` rejects the index, leaves the registry unchanged and emits no
message; a 'joinRoom' that is rejected because `rooms[roomId]` is `undefined`
(no room of that id and no inherited property of that name) or because the room
already holds two players or more sends 'error' to the calling socket and
nothing else. -/
theorem move_rejected_silent (rooms : Rooms) (sid roomId : String) (index : Int)
    (h : rooms.get roomId = none ∨
      ∃ room, rooms.get roomId = some room ∧
        (room.started = false ∨
          ∃ p, jsGet room.players room.currentPlayer = some p ∧
            (p.id ≠ sid ∨ truthy (isValidMove room index) = false))) :
    move rooms sid roomId index = { rooms := rooms, out := [], threw := false } ∧
    ∀ username : String,
      ((rooms.get roomId = none ∧ roomId ∉ inheritedKeys) ∨
        ∃ room, rooms.get roomId = some room ∧ 2 ≤ room.players.length) →
      joinRoom rooms sid roomId username =
        { rooms := rooms, out := [(Target.socket sid, Msg.error "Room pleine ou inexistante")],
          threw := false } := by
  constructor
  · rcases h with h | ⟨room, hroom, hs | ⟨p, hp, hid | hv⟩⟩
    · simp [move, h]
    · simp [move, hroom, hs]
    · by_cases hst : room.started = true
      · simp [move, hroom, hst, hp, hid]
      · simp [move, hroom, hst]
    · by_cases hst : room.started = true
      · by_cases hid : p.id = sid
        · simp [move, hroom, hst, hp, hid, hv]
        · simp [move, hroom, hst, hp, hid]
      · simp [move, hroom, hst]
  · intro username hj
    rcases hj with ⟨hj, hown⟩ | ⟨room, hroom, hfull⟩
    · simp only [joinRoom, hj, if_neg hown]
    · have : ¬ room.players.length < 2 := by omega
      simp [joinRoom, hroom, this]

theorem move_rejected_silent_witness :
    move morpionStart "b" "room1" 4 = { rooms := morpionStart, out := [], threw := false } ∧
    joinRoom morpionStart "b" "room1" "B" =
      { rooms := morpionStart,
        out := [(Target.socket "b", Msg.error "Room pleine ou inexistante")],
        threw := false } ∧
    joinRoom morpionStart "c" "room9" "C" =
      { rooms := morpionStart,
        out := [(Target.socket "c", Msg.error "Room pleine ou inexistante")],
        threw := false } :=
  ⟨(move_rejected_silent morpionStart "b" "room1" 4
      (Or.inr ⟨roomOfCells (List.replicate 9 none), by decide, Or.inr
        ⟨{ id := "a", username := "A", symbol := Symbol.X }, by decide,
          Or.inl (by decide)⟩⟩)).1,
   (move_rejected_silent morpionStart "b" "room1" 4
      (Or.inr ⟨roomOfCells (List.replicate 9 none), by decide, Or.inr
        ⟨{ id := "a", username := "A", symbol := Symbol.X }, by decide,
          Or.inl (by decide)⟩⟩)).2 "B"
      (Or.inr ⟨roomOfCells (List.replicate 9 none), by decide, by decide⟩),
   (move_rejected_silent morpionStart "c" "room9" 4 (Or.inl (by decide))).2 "C"
      (Or.inl ⟨by decide, by decide⟩)⟩

/-! ## Disconnect -/

theorem withoutPlayer_of_nil {sid : String} {entry : String × Room}
    (h : (entry.2.players.filter fun p => decide (p.id ≠ sid)) = []) :
    withoutPlayer sid entry = none := by
  unfold withoutPlayer playersWithout
  rw [if_pos h]

theorem withoutPlayer_of_ne_nil {sid : String} (entry : String × Room)
    (h : (entry.2.players.filter fun p => decide (p.id ≠ sid)) ≠ []) :
    withoutPlayer sid entry =
      some (entry.1,
        { entry.2 with players := entry.2.players.filter fun p => decide (p.id ≠ sid) }) := by
  unfold withoutPlayer playersWithout
  rw [if_neg h]

theorem disconnectLoop_eq (sid : String) (rooms : Rooms) :
    (disconnectLoop sid rooms).1 = rooms.filterMap (withoutPlayer sid) := by
  induction rooms with
  | nil => rfl
  | cons entry rest ih =>
    obtain ⟨roomId, room⟩ := entry
    by_cases hnil : (room.players.filter fun p => decide (p.id ≠ sid)) = []
    · have hw : withoutPlayer sid (roomId, room) = none := withoutPlayer_of_nil hnil
      rw [List.filterMap_cons, hw]
      simp only [disconnectLoop, hnil, List.length_nil]
      exact ih
    · have hw := withoutPlayer_of_ne_nil (roomId, room) hnil
      rw [List.filterMap_cons, hw]
      have hlen : (room.players.filter fun p => decide (p.id ≠ sid)).length ≠ 0 := by
        intro h0
        exact hnil (List.length_eq_zero.mp h0)
      simp only [disconnectLoop, hlen, if_false, ← ih]
      split_ifs <;> rfl

theorem Rooms.get_eq_none_of_not_mem (rooms : Rooms) (roomId : String)
    (h : roomId ∉ rooms.map Prod.fst) : rooms.get roomId = none := by
  induction rooms with
  | nil => rfl
  | cons entry rest ih =>
    obtain ⟨k, r⟩ := entry
    simp only [List.map_cons, List.mem_cons, not_or] at h
    simp [Rooms.get, Ne.symm h.1, ih h.2]

theorem Rooms.mem_of_get {rooms : Rooms} {roomId : String} {room : Room}
    (h : rooms.get roomId = some room) : (roomId, room) ∈ rooms := by
  induction rooms with
  | nil => simp [Rooms.get] at h
  | cons entry rest ih =>
    obtain ⟨k, r⟩ := entry
    by_cases hk : k = roomId
    · simp only [Rooms.get, hk, if_true, Option.some.injEq] at h
      simp [hk, h]
    · simp only [Rooms.get, hk, if_false] at h
      exact List.mem_cons_of_mem _ (ih h)

theorem get_filterMap_withoutPlayer (sid : String) (rooms : Rooms)
    (hkeys : (rooms.map Prod.fst).Nodup) (roomId : String) :
    Rooms.get (rooms.filterMap (withoutPlayer sid)) roomId =
      (rooms.get roomId).bind fun room => (withoutPlayer sid (roomId, room)).map Prod.snd := by
  induction rooms with
  | nil => rfl
  | cons entry rest ih =>
    obtain ⟨k, r⟩ := entry
    simp only [List.map_cons, List.nodup_cons] at hkeys
    have ihr := ih hkeys.2
    by_cases hk : k = roomId
    · subst hk
      have hrest : Rooms.get rest k = none := Rooms.get_eq_none_of_not_mem rest k hkeys.1
      by_cases hw : (r.players.filter fun p => decide (p.id ≠ sid)) = []
      · have h1 : withoutPlayer sid (k, r) = none := withoutPlayer_of_nil hw
        rw [List.filterMap_cons, h1, ihr, hrest]
        simp [Rooms.get, h1]
      · have h1 := withoutPlayer_of_ne_nil (k, r) hw
        rw [List.filterMap_cons, h1]
        simp [Rooms.get, h1]
    · by_cases hw : (r.players.filter fun p => decide (p.id ≠ sid)) = []
      · have h1 : withoutPlayer sid (k, r) = none := withoutPlayer_of_nil hw
        rw [List.filterMap_cons, h1, ihr]
        simp [Rooms.get, hk]
      · have h1 := withoutPlayer_of_ne_nil (k, r) hw
        rw [List.filterMap_cons, h1]
        simp only [Rooms.get, hk, if_false]
        exact ihr

theorem mem_filterMap_withoutPlayer (sid : String) (rooms : Rooms) (roomId : String)
    (room1 : Room) :
    (roomId, room1) ∈ rooms.filterMap (withoutPlayer sid) ↔
      ∃ room, (roomId, room) ∈ rooms ∧
        (room.players.filter fun p => decide (p.id ≠ sid)) ≠ [] ∧
        room1 = { room with players := room.players.filter fun p => decide (p.id ≠ sid) } := by
  rw [List.mem_filterMap]
  constructor
  · rintro ⟨⟨k, r⟩, hin, hw⟩
    unfold withoutPlayer playersWithout at hw
    split_ifs at hw with hnil
    simp only [Option.some.injEq, Prod.mk.injEq] at hw
    obtain ⟨rfl, rfl⟩ := hw
    exact ⟨r, hin, hnil, rfl⟩
  · rintro ⟨room, hin, hnil, rfl⟩
    exact ⟨(roomId, room), hin, withoutPlayer_of_ne_nil (roomId, room) hnil⟩

theorem disconnect_rooms_eq (rooms : Rooms) (sid : String) :
    (disconnect rooms sid).rooms = rooms.filterMap (withoutPlayer sid) := by
  simp [disconnect, disconnectLoop_eq]

/-- C14: after the 'disconnect' handler ran for the socket `sid`, the registry
holds, in the same order, exactly the rooms whose player list without `sid` is
not empty, each with that player list (the other players, in order) and with
its gameType, board, `currentPlayer`, chat and `started` unchanged; no
remaining room has a player with id `sid`; and, keys being unique, looking a
room up gives nothing exactly when it was absent or lost its last player. -/
theorem disconnect_removes_player (rooms : Rooms) (sid : String) :
    (disconnect rooms sid).rooms = rooms.filterMap (withoutPlayer sid) ∧
    (∀ (roomId : String) (room1 : Room), (roomId, room1) ∈ (disconnect rooms sid).rooms →
      (∀ p ∈ room1.players, p.id ≠ sid) ∧ room1.players ≠ [] ∧
      ∃ room, (roomId, room) ∈ rooms ∧
        room1 = { room with players := room.players.filter fun p => decide (p.id ≠ sid) }) ∧
    (∀ (roomId : String) (room : Room), (roomId, room) ∈ rooms →
      ((roomId, { room with players := room.players.filter fun p => decide (p.id ≠ sid) }) ∈
          (disconnect rooms sid).rooms ↔
        (room.players.filter fun p => decide (p.id ≠ sid)) ≠ [])) ∧
    ((rooms.map Prod.fst).Nodup → ∀ roomId : String,
      (disconnect rooms sid).rooms.get roomId =
        match rooms.get roomId with
        | none => none
        | some room =>
            if (room.players.filter fun p => decide (p.id ≠ sid)) = [] then none
            else some { room with players := room.players.filter fun p => decide (p.id ≠ sid) }) := by
  have heq := disconnect_rooms_eq rooms sid
  have hmem := mem_filterMap_withoutPlayer sid rooms
  refine ⟨heq, ?_, ?_, ?_⟩
  · intro roomId room1 hin
    rw [heq, hmem] at hin
    obtain ⟨room, hroom, hnil, rfl⟩ := hin
    refine ⟨?_, hnil, room, hroom, rfl⟩
    intro p hp
    have := (List.mem_filter.mp hp).2
    simpa using this
  · intro roomId room hin
    rw [heq, hmem]
    constructor
    · rintro ⟨room0, _, hnil, hEq⟩
      have hpl : room.players.filter (fun p => decide (p.id ≠ sid)) =
          room0.players.filter (fun p => decide (p.id ≠ sid)) := congrArg Room.players hEq
      rw [hpl]
      exact hnil
    · intro hnil
      exact ⟨room, hin, hnil, rfl⟩
  · intro hkeys roomId
    rw [heq, get_filterMap_withoutPlayer sid rooms hkeys roomId]
    cases rooms.get roomId with
    | none => rfl
    | some room =>
      by_cases hnil : (room.players.filter fun p => decide (p.id ≠ sid)) = []
      · have h1 : withoutPlayer sid (roomId, room) = none := withoutPlayer_of_nil hnil
        simp only [Option.some_bind, h1, Option.map_none', if_pos hnil]
      · have h1 := withoutPlayer_of_ne_nil (roomId, room) hnil
        simp only [Option.some_bind, h1, Option.map_some', if_neg hnil]

theorem disconnect_removes_player_witness :
    (disconnect morpionStart "a").rooms.get "room1" =
      some { roomOfCells (List.replicate 9 none) with
        players := [{ id := "b", username := "B", symbol := Symbol.O }] } ∧
    (disconnect (disconnect morpionStart "a").rooms "b").rooms.get "room1" = none :=
  ⟨((disconnect_removes_player morpionStart "a").2.2.2 (by decide) "room1").trans (by decide),
   ((disconnect_removes_player (disconnect morpionStart "a").rooms "b").2.2.2 (by decide)
      "room1").trans (by decide)⟩

/-! ## Gravity invariant -/

theorem cellAt_isSome {g : List (List Cell)} (hg : IsGrid g) {r c : Nat} (hr : r < 6)
    (hc : c < 7) : ∃ x, cellAt g r c = some x := by
  have hrl : r < g.length := by rw [hg.1]; exact hr
  have hrow : g[r]? = some g[r] := List.getElem?_eq_getElem hrl
  have hlen : g[r].length = 7 := hg.2 _ (List.getElem_mem hrl)
  have hcl : c < g[r].length := by rw [hlen]; exact hc
  exact ⟨g[r][c], by simp [cellAt, hrow, List.getElem?_eq_getElem hcl]⟩

/-- The explicit reading of `Settled` on a grid. -/
theorem settled_marker_above {g : List (List Cell)} (hg : IsGrid g) (hs : Settled g)
    {r r1 c : Nat} {s : Symbol} (hlt : r < r1) (hcell : cellAt g r c = some (some s)) :
    cellAt g r1 c ≠ some none := by
  intro hempty
  obtain ⟨h6, h7⟩ := cellAt_bounds hg hempty
  have := hs r1 h6 r (by omega) c h7 hlt hempty
  rw [hcell] at this
  simp at this

theorem settled_setCell {g : List (List Cell)} {r : Nat} {col : Int} (s : Symbol)
    (hs : Settled g) (hcell : cellAtCol g r col = some none)
    (hup : ∀ r1, r < r1 → r1 < 6 → cellAtCol g r1 col ≠ some none) :
    Settled (setCell g r col s) := by
  obtain ⟨_, _, h0, _, _⟩ := setCell_eq s hcell
  intro r1 h6 r0 h60 c h7 hlt hempty
  rw [cellAt_setCell s hcell] at hempty ⊢
  by_cases hnew1 : r1 = r ∧ c = col.toNat
  · simp [hnew1] at hempty
  · rw [if_neg hnew1] at hempty
    by_cases hnew0 : r0 = r ∧ c = col.toNat
    · exfalso
      obtain ⟨rfl, rfl⟩ := hnew0
      exact hup r1 hlt h6 (by rw [cellAtCol_eq_cellAt g r1 h0]; exact hempty)
    · rw [if_neg hnew0]
      exact hs r1 h6 r0 h60 c h7 hlt hempty

theorem playDrops_invariant (moves : List (Int × Symbol)) :
    ∀ g0 g : List (List Cell), IsGrid g0 → Settled g0 → playDrops g0 moves = some g →
      IsGrid g ∧ Settled g := by
  induction moves with
  | nil =>
    intro g0 g hg hs h
    simp only [playDrops, Option.some.injEq] at h
    subst h
    exact ⟨hg, hs⟩
  | cons mv rest ih =>
    intro g0 g hg hs h
    obtain ⟨col, s⟩ := mv
    by_cases hv : isValidColumn g0 col = true
    · simp only [playDrops, hv, if_true] at h
      obtain ⟨r, _, hcell, hup, hdrop⟩ := dropColumn_valid s hg hv
      rw [hdrop] at h
      exact ih _ g (isGrid_setCell s hg hcell) (settled_setCell s hs hcell hup) h
    · simp [playDrops, hv] at h

theorem isValidColumn_iff_top {g : List (List Cell)} (hg : IsGrid g) (hs : Settled g)
    (col : Int) : isValidColumn g col = true ↔ cellAtCol g 0 col = some none := by
  constructor
  · intro hv
    obtain ⟨r, hr, hcell⟩ := isValidColumn_iff.mp hv
    rw [hg.1] at hr
    obtain ⟨row, hrow, h0, hc, _⟩ := setCell_eq Symbol.X hcell
    have hc7 : col.toNat < 7 := by
      have := (List.getElem?_eq_some_iff.mp hc).1
      rwa [hg.2 row (List.getElem?_mem hrow)] at this
    rw [cellAtCol_eq_cellAt g _ h0] at hcell ⊢
    rcases Nat.eq_zero_or_pos r with rfl | hpos
    · exact hcell
    · obtain ⟨x, hx⟩ := cellAt_isSome hg (by omega : 0 < 6) hc7
      have := hs r hr 0 (by omega) col.toNat hc7 hpos hcell
      rw [hx] at this ⊢
      cases x with
      | none => rfl
      | some t => simp at this
  · intro htop
    exact isValidColumn_iff.mpr ⟨0, by rw [hg.1]; omega, htop⟩

/-- C19: every grid obtained from the board of `initBoard('puissance4')` by
drops on columns for which `isValidMove` holds is a 6x7 grid in which no marker
sits above an empty cell of the same column; on such a grid `isValidMove(c)`
is true exactly when the top-row cell `board[0][c]` is empty. -/
theorem gravity_invariant (moves : List (Int × Symbol)) (g : List (List Cell))
    (h : playDrops (List.replicate 6 (List.replicate 7 none)) moves = some g) :
    initBoard "puissance4" = Board.grid (List.replicate 6 (List.replicate 7 none)) ∧
    IsGrid g ∧
    (∀ (r r1 c : Nat) (s : Symbol), r < r1 → cellAt g r c = some (some s) →
      cellAt g r1 c ≠ some none) ∧
    (∀ (room : Room) (col : Int), room.gameType = "puissance4" → room.board = Board.grid g →
      (isValidMove room col = some true ↔ cellAtCol g 0 col = some none)) := by
  obtain ⟨hg, hs⟩ := playDrops_invariant moves _ g (by decide) (by decide) h
  refine ⟨by decide, hg, ?_, ?_⟩
  · intro r r1 c s hlt hcell
    exact settled_marker_above hg hs hlt hcell
  · intro room col hgt hb
    rw [isValidMove_puissance4 col hgt hb, ← isValidColumn_iff_top hg hs col]
    simp

theorem gravity_invariant_witness :
    initBoard "puissance4" = Board.grid (List.replicate 6 (List.replicate 7 none)) ∧
    IsGrid gridColumnThree ∧
    (∀ (r r1 c : Nat) (s : Symbol), r < r1 → cellAt gridColumnThree r c = some (some s) →
      cellAt gridColumnThree r1 c ≠ some none) ∧
    (∀ (room : Room) (col : Int), room.gameType = "puissance4" →
      room.board = Board.grid gridColumnThree →
      (isValidMove room col = some true ↔ cellAtCol gridColumnThree 0 col = some none)) :=
  gravity_invariant [(3, Symbol.R), (3, Symbol.Y)] gridColumnThree (by decide)

/-! ## No line of four is kept on a 'puissance4' board -/

theorem Rooms.mem_put {rooms : Rooms} {roomId : String} {room : Room} {entry : String × Room}
    (h : entry ∈ rooms.put roomId room) : entry ∈ rooms ∨ entry.2 = room := by
  induction rooms with
  | nil =>
    simp only [Rooms.put, List.mem_singleton] at h
    right; rw [h]
  | cons kr rest ih =>
    obtain ⟨k, r⟩ := kr
    by_cases hk : k = roomId
    · simp only [Rooms.put, hk, if_true, List.mem_cons] at h
      rcases h with h | h
      · right; rw [h]
      · left; exact List.mem_cons_of_mem _ h
    · simp only [Rooms.put, hk, if_false, List.mem_cons] at h
      rcases h with h | h
      · left; rw [h]; exact List.mem_cons_self _ _
      · rcases ih h with h1 | h1
        · left; exact List.mem_cons_of_mem _ h1
        · right; exact h1

theorem hasLine_setCell {g : List (List Cell)} {r : Nat} {col : Int} {s t : Symbol}
    (hcell : cellAtCol g r col = some none) (h : HasLine (setCell g r col s) t) :
    HasLine g t ∨ t = s := by
  by_cases hts : t = s
  · exact Or.inr hts
  · left
    obtain ⟨r0, hr0, c0, hc0, d, hd, hline⟩ := h
    refine ⟨r0, hr0, c0, hc0, d, hd, fun k hk => ?_⟩
    have hk1 := hline k hk
    by_cases hneg : (r0 : Int) + (k : Int) * d.1 < 0 ∨ (c0 : Int) + (k : Int) * d.2 < 0
    · simp [gridAt, hneg] at hk1
    · simp only [gridAt, hneg, if_false] at hk1 ⊢
      rw [cellAt_setCell s hcell] at hk1
      split_ifs at hk1 with hnew
      · simp only [Option.some.injEq] at hk1
        exact absurd hk1.symm hts
      · exact hk1

theorem boardOk_of_eq (room : Room) {room1 : Room} (hgt : room1.gameType = room.gameType)
    (hb : room1.board = room.board) (h : BoardOk room) : BoardOk room1 := by
  intro hp4
  rw [hgt] at hp4
  rw [hb]
  exact h hp4

theorem boardOk_initBoard (room : Room) (hb : room.board = initBoard room.gameType) :
    BoardOk room := by
  intro hp4
  refine ⟨List.replicate 6 (List.replicate 7 none), ?_, by decide, ?_⟩
  · rw [hb, hp4]; decide
  · intro s; cases s <;> decide

/-- The board kept after an accepted move that did not win. -/
theorem boardOk_applyMove {room room1 : Room} {p : Player} {index : Int} (h : BoardOk room)
    (hp : jsGet room.players room.currentPlayer = some p)
    (hvalid : truthy (isValidMove room index) = true)
    (happly : applyMove room index = some room1)
    (hw : (checkWin room1).truthy = false) : BoardOk room1 := by
  obtain ⟨hgt, _⟩ := applyMove_frame happly
  intro hp4
  rw [hgt] at hp4
  obtain ⟨g, hb, hg, _⟩ := h hp4
  have hv : isValidColumn g index = true := by
    rw [isValidMove_puissance4 index hp4 hb] at hvalid
    simpa [truthy] using hvalid
  rw [applyMove_grid_eq index hp4 hb hp] at happly
  injection happly with happly
  subst happly
  obtain ⟨hg1, _⟩ := dropColumn_count p.symbol hg hv
  refine ⟨dropColumn g index p.symbol, rfl, hg1, ?_⟩
  intro s hline
  have hne : room.gameType ≠ "morpion" := by rw [hp4]; decide
  have hnone := checkWinGrid_ne_none hg1 hline
  cases hcw : checkWinGrid (dropColumn g index p.symbol) with
  | none => exact hnone hcw
  | some t => simp [checkWin, hne, hp4, hcw, Winner.truthy] at hw

/-- When 'win' is emitted, the move was accepted and the winner is what
`checkWin` returned on the room after `applyMove`. -/
theorem move_win_cases {rooms : Rooms} {sid roomId : String} {index : Int} {w : Winner}
    (h : (Target.room roomId, Msg.win w) ∈ (move rooms sid roomId index).out) :
    ∃ room p room1, rooms.get roomId = some room ∧ room.started = true ∧
      jsGet room.players room.currentPlayer = some p ∧ p.id = sid ∧
      truthy (isValidMove room index) = true ∧ applyMove room index = some room1 ∧
      w = checkWin room1 ∧ (checkWin room1).truthy = true := by
  cases hroom : rooms.get roomId with
  | none => simp [move, hroom] at h
  | some room =>
    by_cases hs : room.started = true
    swap
    · simp [move, hroom, hs] at h
    cases hp : jsGet room.players room.currentPlayer with
    | none => simp [move, hroom, hs, hp] at h
    | some p =>
      by_cases hid : p.id = sid
      swap
      · simp [move, hroom, hs, hp, hid] at h
      by_cases hv : truthy (isValidMove room index) = true
      swap
      · simp [move, hroom, hs, hp, hid, hv] at h
      obtain ⟨room1, happly⟩ := applyMove_isSome index hp
      refine ⟨room, p, room1, rfl, hs, hp, hid, hv, happly, ?_⟩
      rcases move_accepted rooms sid roomId index room room1 p hroom hs hp hid hv happly with
        ⟨hw, hout⟩ | ⟨_, _, hout⟩ | ⟨_, _, _, hnw, _⟩
      · rw [hout] at h
        simp at h
        exact ⟨h, hw⟩
      · rw [hout] at h
        simp at h
      · exact absurd h (hnw w)

/-- What 'joinRoom' does to the registry: nothing, or the room is replaced by one
with the same gameType and board. -/
theorem joinRoom_rooms_cases (rooms : Rooms) (sid roomId username : String) :
    (joinRoom rooms sid roomId username).rooms = rooms ∨
    ∃ room room1, rooms.get roomId = some room ∧
      (joinRoom rooms sid roomId username).rooms = rooms.put roomId room1 ∧
      room1.gameType = room.gameType ∧ room1.board = room.board := by
  cases hroom : rooms.get roomId with
  | none =>
    left
    simp only [joinRoom, hroom]
    split_ifs <;> rfl
  | some room =>
    by_cases hlen : room.players.length < 2
    · right
      simp only [joinRoom, hroom, hlen, if_true]
      split_ifs <;> exact ⟨room, _, rfl, rfl, rfl, rfl⟩
    · left; simp [joinRoom, hroom, hlen]

theorem boardOk_step (rooms : Rooms) (a : Action)
    (h : ∀ entry ∈ rooms, BoardOk entry.2) : ∀ entry ∈ (step rooms a).rooms, BoardOk entry.2 := by
  intro entry hin
  cases a with
  | createRoom sid roomId username gameType =>
    simp only [step, createRoom] at hin
    rcases Rooms.mem_put hin with h1 | h1
    · exact h entry h1
    · rw [h1]; exact boardOk_initBoard _ rfl
  | joinRoom sid roomId username =>
    simp only [step] at hin
    rcases joinRoom_rooms_cases rooms sid roomId username with hsame | hput
    · rw [hsame] at hin; exact h entry hin
    · obtain ⟨room, room1, hroom, hrooms, hgt, hb⟩ := hput
      rw [hrooms] at hin
      rcases Rooms.mem_put hin with h1 | h1
      · exact h entry h1
      · rw [h1]
        exact boardOk_of_eq room hgt hb (h (roomId, room) (Rooms.mem_of_get hroom))
  | move sid roomId index =>
    simp only [step] at hin
    rcases move_rooms_cases rooms sid roomId index with hsame | hacc
    · rw [hsame] at hin; exact h entry hin
    · obtain ⟨room, p, room1, hroom, _, hp, _, hvalid, happly, hout⟩ := hacc
      have hroomOk : BoardOk room := h (roomId, room) (Rooms.mem_of_get hroom)
      rcases hout with ⟨_, hrooms⟩ | ⟨hw, _, hrooms⟩
      · rw [hrooms] at hin
        rcases Rooms.mem_put hin with h1 | h1
        · exact h entry h1
        · rw [h1]; exact boardOk_initBoard _ rfl
      · rw [hrooms] at hin
        rcases Rooms.mem_put hin with h1 | h1
        · exact h entry h1
        · rw [h1]
          exact boardOk_of_eq room1 rfl rfl (boardOk_applyMove hroomOk hp hvalid happly hw)
  | chat sid roomId message =>
    simp only [step, chat] at hin
    cases hroom : rooms.get roomId with
    | none =>
      simp only [hroom] at hin
      split_ifs at hin <;> exact h entry hin
    | some room =>
      have hroomOk : BoardOk room := h (roomId, room) (Rooms.mem_of_get hroom)
      simp only [hroom] at hin
      rcases Rooms.mem_put hin with h1 | h1
      · exact h entry h1
      · rw [h1]; exact boardOk_of_eq room rfl rfl hroomOk
  | disconnect sid =>
    simp only [step] at hin
    rw [disconnect_rooms_eq] at hin
    obtain ⟨k, r1⟩ := entry
    obtain ⟨room, hroom, _, hEq⟩ := (mem_filterMap_withoutPlayer sid rooms k r1).mp hin
    have hroomOk : BoardOk room := h (k, room) hroom
    simp only [hEq]
    exact boardOk_of_eq room rfl rfl hroomOk

theorem boardOk_run (actions : List Action) :
    ∀ rooms0 rooms : Rooms, (∀ entry ∈ rooms0, BoardOk entry.2) →
      run rooms0 actions = some rooms → ∀ entry ∈ rooms, BoardOk entry.2 := by
  induction actions with
  | nil =>
    intro rooms0 rooms h0 hrun
    simp only [run, Option.some.injEq] at hrun
    subst hrun
    exact h0
  | cons a rest ih =>
    intro rooms0 rooms h0 hrun
    simp only [run] at hrun
    split_ifs at hrun
    exact ih _ rooms (boardOk_step rooms0 a h0) hrun

/-- C20: in every registry reachable from the empty one by 'createRoom',
'joinRoom', 'move', 'chat' and 'disconnect', the board of every 'puissance4'
room is a 6x7 grid without a line of four equal markers; and whenever the
'move' handler emits 'win' for such a room, the winner announced is the marker
of `players[currentPlayer]`, the player who sent the move. -/
theorem puissance4_no_line_kept (rooms : Rooms) (hreach : Reachable rooms) :
    ∀ (roomId : String) (room : Room), rooms.get roomId = some room →
      room.gameType = "puissance4" →
      ∃ g, room.board = Board.grid g ∧ IsGrid g ∧ (∀ s : Symbol, ¬ HasLine g s) ∧
        ∀ (sid : String) (index : Int) (w : Winner),
          (Target.room roomId, Msg.win w) ∈ (move rooms sid roomId index).out →
          ∃ p, jsGet room.players room.currentPlayer = some p ∧ p.id = sid ∧
            w = Winner.symbol p.symbol := by
  obtain ⟨actions, hreach⟩ := hreach
  intro roomId room hroom hp4
  have hok : BoardOk room :=
    boardOk_run actions [] rooms (fun _ hin => absurd hin (List.not_mem_nil _)) hreach
      (roomId, room) (Rooms.mem_of_get hroom)
  obtain ⟨g, hb, hg, hnoline⟩ := hok hp4
  refine ⟨g, hb, hg, hnoline, ?_⟩
  intro sid index w hwin
  obtain ⟨room0, p, room1, hroom0, _, hp, hid, hvalid, happly, hw, htruthy⟩ := move_win_cases hwin
  rw [hroom] at hroom0
  injection hroom0 with hroom0
  subst hroom0
  refine ⟨p, hp, hid, ?_⟩
  have hv : isValidColumn g index = true := by
    rw [isValidMove_puissance4 index hp4 hb] at hvalid
    simpa [truthy] using hvalid
  obtain ⟨r, _, hcell, _, hdrop⟩ := dropColumn_valid p.symbol hg hv
  rw [applyMove_grid_eq index hp4 hb hp] at happly
  injection happly with happly
  subst happly
  have hne : room.gameType ≠ "morpion" := by rw [hp4]; decide
  cases hcw : checkWinGrid (dropColumn g index p.symbol) with
  | none => simp [checkWin, hne, hp4, hcw, Winner.truthy] at htruthy
  | some t =>
    have hline := hasLine_of_checkWinGrid hcw
    rw [hdrop] at hline
    rcases hasLine_setCell hcell hline with hold | hts
    · exact absurd hold (hnoline t)
    · rw [hw]
      simp [checkWin, hne, hp4, hcw, hts]

theorem puissance4_no_line_kept_witness :
    ∃ g, (roomOfGrid gridColumnThree).board = Board.grid g ∧ IsGrid g ∧
      (∀ s : Symbol, ¬ HasLine g s) ∧
      ∀ (sid : String) (index : Int) (w : Winner),
        (Target.room "room2", Msg.win w) ∈ (move puissance4AfterTwo sid "room2" index).out →
        ∃ p, jsGet (roomOfGrid gridColumnThree).players
            (roomOfGrid gridColumnThree).currentPlayer = some p ∧ p.id = sid ∧
          w = Winner.symbol p.symbol :=
  puissance4_no_line_kept puissance4AfterTwo ⟨tracePuissance4, by decide⟩ "room2"
    (roomOfGrid gridColumnThree) (by decide) rfl

end WebSocketGame
